import Mathlib

/-!
Verification development for the `sealion` chess move-generation core.

The Rust sources are shallowly embedded: `u64` bitboards become naturals
kept below `2 ^ 64` (wrap-around is made explicit where Rust wraps),
squares are naturals `0..63`, fallible lookups return `Option`, and the
in-place mutation of `Position` becomes explicit state passing.

Recursive definitions are written with explicit `Nat.rec` / `List.rec`
so that every function evaluates by plain kernel reduction; each
definition notes the Rust item it translates.
-/

namespace Sealion

/-! ## Bit utilities (`u64` arithmetic) -/

/-- All 64 bits set: `u64::MAX`. Values of Rust type `u64` are modelled as
naturals strictly below `2 ^ 64`. -/
def mask64 : Nat := 2 ^ 64 - 1

/-- Rust `<<` on `u64`: left shift, truncated to 64 bits. -/
def shl64 (x k : Nat) : Nat := (x <<< k) &&& mask64

/-- Rust `>>` on `u64`: logical right shift (no truncation needed). -/
def shr64 (x k : Nat) : Nat := x >>> k

/-- Rust `!` on `u64`: bitwise complement within 64 bits. -/
def not64 (x : Nat) : Nat := mask64 ^^^ x

/-- Rust `u8::abs_diff` / `Nat` absolute difference. -/
def absDiff (a b : Nat) : Nat := cond (Nat.ble a b) (b - a) (a - b)

/-- Scan for the lowest set bit; `fuel` bounds the number of bits examined.
Helper for `u64Tz`. -/
def u64TzGo (fuel : Nat) : Nat → Nat :=
  Nat.rec (motive := fun _ => Nat → Nat)
    (fun _ => 0)
    (fun _ ih n => cond ((n &&& 1) == 1) 0 (1 + ih (n >>> 1)))
    fuel

/-- Model of `u64::trailing_zeros`: index of the lowest set bit, `64` when the
value is zero. -/
def u64Tz (n : Nat) : Nat := cond (n == 0) 64 (u64TzGo 64 n)

/-- Count set bits while `fuel` remains. Helper for `u64Popcount`. -/
def u64PopcountGo (fuel : Nat) : Nat → Nat :=
  Nat.rec (motive := fun _ => Nat → Nat)
    (fun _ => 0)
    (fun _ ih n => cond (n == 0) 0 ((n &&& 1) + ih (n >>> 1)))
    fuel

/-- Model of `u64::count_ones` (popcount) for values below `2 ^ 64`. -/
def u64Popcount (n : Nat) : Nat := u64PopcountGo 64 n

/-! ## List helpers

Kernel-reducible (via `List.rec`) counterparts of the list operations the
Rust iterator loops compile to. -/

/-- Left fold via `List.rec`; translates Rust `for` loops that thread an
accumulator. -/
def listFoldl (f : α → β → α) (l : List β) (init : α) : α :=
  List.rec (motive := fun _ => α → α)
    (fun acc => acc)
    (fun b _ ih acc => ih (f acc b))
    l init

/-- List length via `List.rec` (`SmallVec::len`). -/
def listLength (l : List α) : Nat :=
  List.rec (motive := fun _ => Nat) 0 (fun _ _ ih => 1 + ih) l

/-- First element via `List.rec` (`SmallVec::get(0)`). -/
def listHead (l : List α) : Option α :=
  List.rec (motive := fun _ => Option α) none (fun a _ _ => some a) l

/-- Append via `List.rec` (`Vec::extend` / `SmallVec::push`). -/
def listAppend (l m : List α) : List α :=
  List.rec (motive := fun _ => List α) m (fun a _ ih => a :: ih) l

/-- Reverse via `listFoldl`; used to translate push-order accumulation. -/
def listReverse (l : List α) : List α :=
  listFoldl (fun acc a => a :: acc) l []

/-- Indexing with a default (`[T; N]` indexing on a table). -/
def listGetD (l : List α) (i : Nat) (dflt : α) : α :=
  List.rec (motive := fun _ => Nat → α)
    (fun _ => dflt)
    (fun a _ ih j => cond (j == 0) a (ih (j - 1)))
    l i

/-! ## `BitBoard` operations (`board/src/bitboard.rs`) -/

/-- `BitBoard::get`: test the bit at `square`. -/
def bbGet (b square : Nat) : Bool := (b &&& (1 <<< square)) != 0

/-- `BitBoard::set`: clear the bit at `square`, then or in `value`. -/
def bbSet (b square : Nat) (value : Bool) : Nat :=
  (b &&& not64 (1 <<< square)) ||| ((cond value 1 0) <<< square)

/-- `BitBoard::is_empty`. -/
def bbIsEmpty (b : Nat) : Bool := b == 0

/-- `BitBoard::from_square`: single-bit board. -/
def fromSquare (square : Nat) : Nat := 1 <<< square

/-- `BitBoard::to_square_unchecked`: index of the lowest set bit. -/
def toSquareUnchecked (b : Nat) : Nat := u64Tz b

/-- One step of `SetIter::next`: emit the lowest set square and clear it,
or `none` when `trailing_zeros` reports 64. -/
def setIterNext (inner : Nat) : Option (Nat × Nat) :=
  let trailing := u64Tz inner
  cond (Nat.blt trailing 64)
    (some (trailing, inner &&& not64 (fromSquare trailing)))
    none

/-- Run `SetIter` to exhaustion, collecting at most `fuel` squares. -/
def setIterGo (fuel : Nat) : Nat → List Nat :=
  Nat.rec (motive := fun _ => Nat → List Nat)
    (fun _ => [])
    (fun _ ih inner =>
      match setIterNext inner with
      | none => []
      | some (sq, inner2) => sq :: ih inner2)
    fuel

/-- The list of squares produced by `BitBoard::set_iter`; a `u64` has at
most 64 set bits, so fuel 64 runs the iterator to exhaustion. -/
def setIterList (b : Nat) : List Nat := setIterGo 64 b

/-- `A_FILE` constant mask. -/
def aFile : Nat := 0x0101010101010101

/-- `H_FILE` constant mask. -/
def hFile : Nat := 0x8080808080808080

/-! ## Pieces (`board/src/piece.rs`) -/

/-- Player / piece color. -/
inductive Color where
  | white
  | black
deriving DecidableEq

/-- Boolean equality on colors. -/
def Color.beq : Color → Color → Bool
  | .white, .white => true
  | .black, .black => true
  | _, _ => false

instance : BEq Color := ⟨Color.beq⟩

/-- `Color::opposite`. -/
def Color.opposite : Color → Color
  | .white => .black
  | .black => .white

/-- All piece kinds. -/
inductive PieceKind where
  | pawn
  | knight
  | bishop
  | rook
  | queen
  | king
deriving DecidableEq

/-- Boolean equality on piece kinds. -/
def PieceKind.beq : PieceKind → PieceKind → Bool
  | .pawn, .pawn => true
  | .knight, .knight => true
  | .bishop, .bishop => true
  | .rook, .rook => true
  | .queen, .queen => true
  | .king, .king => true
  | _, _ => false

instance : BEq PieceKind := ⟨PieceKind.beq⟩

/-! ## Moves (`board/src/moves.rs`) -/

/-- Capture classification attached to a generated move. -/
inductive Capture where
  | regular (kind : PieceKind)
  | enPassant (square : Nat)
deriving DecidableEq

/-- `MoveExt`: full move record used by generation and application; `fromSq`
and `toSq` are the Rust fields `from` and `to`. -/
structure MoveExt where
  pieceKind : PieceKind
  fromSq : Nat
  toSq : Nat
  promotion : Option PieceKind
  capture : Option Capture
deriving DecidableEq

/-! ## Board (`board/src/lib.rs`) -/

/-- The board: one 64-bit mask per color and per piece kind (the Rust
`color_bb : [BitBoard; 2]` and `piece_bb : [BitBoard; 6]` arrays). -/
structure Board where
  white : Nat
  black : Nat
  pawn : Nat
  knight : Nat
  bishop : Nat
  rook : Nat
  queen : Nat
  king : Nat
deriving DecidableEq

/-- `Board::get_color_bb`. -/
def Board.getColorBB (b : Board) : Color → Nat
  | .white => b.white
  | .black => b.black

/-- `Board::get_piece_kind_bb`. -/
def Board.getPieceKindBB (b : Board) : PieceKind → Nat
  | .pawn => b.pawn
  | .knight => b.knight
  | .bishop => b.bishop
  | .rook => b.rook
  | .queen => b.queen
  | .king => b.king

/-- Write through `Board::get_color_bb_mut`. -/
def Board.setColorBB (b : Board) (c : Color) (v : Nat) : Board :=
  match c with
  | .white => { b with white := v }
  | .black => { b with black := v }

/-- Write through `Board::get_piece_kind_bb_mut`. -/
def Board.setPieceKindBB (b : Board) (k : PieceKind) (v : Nat) : Board :=
  match k with
  | .pawn => { b with pawn := v }
  | .knight => { b with knight := v }
  | .bishop => { b with bishop := v }
  | .rook => { b with rook := v }
  | .queen => { b with queen := v }
  | .king => { b with king := v }

/-- `Board::get_piece_bb`: pieces of one color and kind. -/
def Board.getPieceBB (b : Board) (c : Color) (k : PieceKind) : Nat :=
  b.getPieceKindBB k &&& b.getColorBB c

/-- `Board::get_full_bb`: full occupancy. -/
def Board.getFullBB (b : Board) : Nat := b.white ||| b.black

/-- `Board::starting_position`. -/
def Board.startingPosition : Board where
  white := 0x000000000000FFFF
  black := 0xFFFF000000000000
  pawn := 0x00FF00000000FF00
  knight := 0x4200000000000042
  bishop := 0x2400000000000024
  rook := 0x8100000000000081
  queen := 0x0800000000000008
  king := 0x1000000000000010

/-! ## Castling rights and position (`board/src/position.rs`) -/

/-- `CastlingRights::WHITE_OO` bit. -/
def whiteOO : Nat := 0x01

/-- `CastlingRights::WHITE_OOO` bit. -/
def whiteOOO : Nat := 0x02

/-- `CastlingRights::BLACK_OO` bit. -/
def blackOO : Nat := 0x04

/-- `CastlingRights::BLACK_OOO` bit. -/
def blackOOO : Nat := 0x08

/-- `CastlingRights::all()`. -/
def castlingAll : Nat := 0x0F

/-- `CastlingRights::contains` for a single-flag argument. -/
def castlingContains (r flag : Nat) : Bool := (r &&& flag) == flag

/-- `CastlingRights::unset_oo`: clear the king-side right of `color`
(`self & !WHITE_OO` resp. `self & !BLACK_OO`; bitflags complement stays
within the four defined bits). -/
def castlingUnsetOO (r : Nat) : Color → Nat
  | .white => r &&& (castlingAll ^^^ whiteOO)
  | .black => r &&& (castlingAll ^^^ blackOO)

/-- `CastlingRights::unset_ooo` as written in the source: for white it
clears `WHITE_OO` and for black `BLACK_OO` (the king-side bits), not the
queen-side bits. -/
def castlingUnsetOOO (r : Nat) : Color → Nat
  | .white => r &&& (castlingAll ^^^ whiteOO)
  | .black => r &&& (castlingAll ^^^ blackOO)

/-- Full game state (`Position`). `halfmoveClock` and `fullmoveCounter` are
`u8` fields: arithmetic on them wraps modulo 256. -/
structure Position where
  board : Board
  activeColor : Color
  castling : Nat
  epTarget : Option Nat
  halfmoveClock : Nat
  fullmoveCounter : Nat
deriving DecidableEq

/-- `Position::starting`. -/
def Position.starting : Position where
  board := Board.startingPosition
  activeColor := .white
  castling := castlingAll
  epTarget := none
  halfmoveClock := 0
  fullmoveCounter := 1

/-- `Position::reset_rook_castling`: clear castle flags of the *active*
color when a rook on `squareBB` changes, keying on the a/h file masks. -/
def Position.resetRookCastling (p : Position) (squareBB : Nat) : Position :=
  cond ((squareBB &&& aFile) != 0)
    { p with castling := castlingUnsetOOO p.castling p.activeColor }
    (cond ((squareBB &&& hFile) != 0)
      { p with castling := castlingUnsetOO p.castling p.activeColor }
      p)

/-! ## Move application (`Position::apply_move_unchecked`) -/

/-- `Option::is_none`. -/
def optionIsNone : Option α → Bool
  | none => true
  | some _ => false

/-- Step 1 of `Position::apply_move_unchecked`: move the piece in the
active color mask and in its piece-kind mask. -/
def applyMovePiece (p : Position) (m : MoveExt) : Position :=
  let fromSq := fromSquare m.fromSq
  let toSq := fromSquare m.toSq
  let colorBB := p.board.getColorBB p.activeColor
  let board := p.board.setColorBB p.activeColor ((colorBB &&& not64 fromSq) ||| toSq)
  let pieceBB := board.getPieceKindBB m.pieceKind
  let board := board.setPieceKindBB m.pieceKind ((pieceBB &&& not64 fromSq) ||| toSq)
  { p with board := board }

/-- Rook relocation of the castling branch of `apply_move_unchecked`
(reached when the mover is a king moving two files). -/
def applyCastleRook (p : Position) (m : MoveExt) : Position :=
  let fromSq := fromSquare m.fromSq
  let rookFromTo :=
    cond (Nat.blt m.toSq m.fromSq)
      (fromSq >>> 4, fromSq >>> 1)        -- queen side
      (shl64 fromSq 3, shl64 fromSq 1)    -- king side
  let rookBB := p.board.getPieceKindBB .rook
  let board := p.board.setPieceKindBB .rook
    ((rookBB &&& not64 rookFromTo.1) ||| rookFromTo.2)
  let colorBB := board.getColorBB p.activeColor
  let board := board.setColorBB p.activeColor
    ((colorBB &&& not64 rookFromTo.1) ||| rookFromTo.2)
  { p with board := board }

/-- Step 2 of `apply_move_unchecked`: on a king move drop both castling
rights and, for a two-file king move, relocate the rook. -/
def applyCastlingStep (p : Position) (m : MoveExt) : Position :=
  cond (m.pieceKind == PieceKind.king)
    (let p1 := { p with castling := castlingUnsetOO p.castling p.activeColor }
     let p2 := { p1 with castling := castlingUnsetOOO p1.castling p1.activeColor }
     cond (absDiff m.fromSq m.toSq == 2) (applyCastleRook p2 m) p2)
    p

/-- Step 3 of `apply_move_unchecked`: rook moves drop the castling right of
the rook corner file. -/
def applyRookStep (p : Position) (m : MoveExt) : Position :=
  cond (m.pieceKind == PieceKind.rook)
    (p.resetRookCastling (fromSquare m.fromSq))
    p

/-- Promotion sub-step of `apply_move_unchecked`: swap the destination bit
from the pawn mask to the promoted kind mask. -/
def applyPromotion (p : Position) (m : MoveExt) : Position :=
  match m.promotion with
  | some promotion =>
      let toSq := fromSquare m.toSq
      let pawnBB := p.board.getPieceKindBB .pawn
      let board := p.board.setPieceKindBB .pawn (pawnBB &&& not64 toSq)
      let promoBB := board.getPieceKindBB promotion
      let board := board.setPieceKindBB promotion (promoBB ||| toSq)
      { p with board := board }
  | none => p

/-- Steps 4 and 5 of `apply_move_unchecked`: always clear the en passant
target; on a pawn move handle promotion and set the target again for a
double push. -/
def applyPawnStep (p : Position) (m : MoveExt) : Position :=
  let p0 := { p with epTarget := none }
  cond (m.pieceKind == PieceKind.pawn)
    (let p1 := applyPromotion p0 m
     cond (absDiff m.toSq m.fromSq == 16)
       (let epTarget :=
          match p1.activeColor with
          | .white => m.fromSq + 8
          | .black => m.fromSq - 8
        { p1 with epTarget := some epTarget })
       p1)
    p0

/-- Step 6 of `apply_move_unchecked`: remove a regularly captured piece
(running the buggy active-color `reset_rook_castling` when the captured
piece is a rook), or remove the pawn taken en passant. -/
def applyCaptureStep (p : Position) (m : MoveExt) : Position :=
  let toSq := fromSquare m.toSq
  match m.capture with
  | some (.regular cap) =>
      let board := p.board.setColorBB p.activeColor.opposite
        (p.board.getColorBB p.activeColor.opposite &&& not64 toSq)
      let board := board.setPieceKindBB cap (board.getPieceKindBB cap &&& not64 toSq)
      let board := board.setPieceKindBB m.pieceKind
        (board.getPieceKindBB m.pieceKind ||| toSq)   -- in case they are the same type
      let p1 := { p with board := board }
      cond (cap == PieceKind.rook) (p1.resetRookCastling toSq) p1
  | some (.enPassant _) =>
      let capturedSq :=
        match p.activeColor with
        | .white => toSq >>> 8
        | .black => shl64 toSq 8
      let board := p.board.setColorBB p.activeColor.opposite
        (p.board.getColorBB p.activeColor.opposite &&& not64 capturedSq)
      let board := board.setPieceKindBB .pawn
        (board.getPieceKindBB .pawn &&& not64 capturedSq)
      { p with board := board }
  | none => p

/-- Steps 7 to 9 of `apply_move_unchecked`: bump the `u8` clocks (the
half-move clock increments when there is no capture or the mover is not a
pawn, and is never reset) and flip the active color. -/
def applyCounters (p : Position) (m : MoveExt) : Position :=
  let p1 :=
    cond (optionIsNone m.capture || !(m.pieceKind == PieceKind.pawn))
      { p with halfmoveClock := (p.halfmoveClock + 1) % 256 }
      p
  let p2 :=
    cond (p1.activeColor == Color.black)
      { p1 with fullmoveCounter := (p1.fullmoveCounter + 1) % 256 }
      p1
  { p2 with activeColor := p2.activeColor.opposite }

/-- `Position::apply_move_unchecked`: apply a move with no preliminary
checks; the steps run in the statement order of the Rust function. -/
def Position.applyMoveUnchecked (p : Position) (m : MoveExt) : Position :=
  applyCounters
    (applyCaptureStep
      (applyPawnStep
        (applyRookStep
          (applyCastlingStep (applyMovePiece p m) m) m) m) m) m

/-! ## Attack tables (`maven/src/lib.rs` const blocks) -/

/-- Body of one iteration of the `KNIGHT_ATTACKS` const initializer. -/
def knightEntry (i : Nat) : Nat :=
  let file := i % 8
  let rank := i / 8
  let start := 1 <<< i
  let moves := 0
  let moves := cond (Nat.ble 2 file && Nat.blt rank 7) (moves ||| shl64 start 6) moves
  let moves := cond (Nat.ble 1 file && Nat.blt rank 6) (moves ||| shl64 start 15) moves
  let moves := cond (Nat.ble file 5 && Nat.blt rank 7) (moves ||| shl64 start 10) moves
  let moves := cond (Nat.ble file 6 && Nat.blt rank 6) (moves ||| shl64 start 17) moves
  let moves := cond (Nat.ble 2 file && Nat.ble 1 rank) (moves ||| (start >>> 10)) moves
  let moves := cond (Nat.ble 1 file && Nat.ble 2 rank) (moves ||| (start >>> 17)) moves
  let moves := cond (Nat.ble file 5 && Nat.ble 1 rank) (moves ||| (start >>> 6)) moves
  let moves := cond (Nat.ble file 6 && Nat.ble 2 rank) (moves ||| (start >>> 15)) moves
  moves

/-- Body of one iteration of the `KING_ATTACKS` const initializer. -/
def kingEntry (i : Nat) : Nat :=
  let file := i % 8
  let rank := i / 8
  let start := 1 <<< i
  let moves := 0
  let moves := cond (Nat.blt 0 file)
    (((moves ||| (start >>> 9)) ||| (start >>> 1)) ||| shl64 start 7) moves
  let moves := cond (Nat.blt file 7)
    (((moves ||| (start >>> 7)) ||| shl64 start 1) ||| shl64 start 9) moves
  let mask := (shl64 start 7 ||| shl64 start 8) ||| shl64 start 9
  let moves := cond (rank == 7) (moves &&& not64 mask) (moves ||| mask)
  let mask := mask >>> 16
  let moves := cond (rank == 0) (moves &&& not64 mask) (moves ||| mask)
  moves

/-- Run a table initializer for indices `i, i+1, ...` while `fuel` remains
(the Rust `while i < 64` loops). -/
def tableGo (f : Nat → Nat) (fuel : Nat) : Nat → List Nat :=
  Nat.rec (motive := fun _ => Nat → List Nat)
    (fun _ => [])
    (fun _ ih i => f i :: ih (i + 1))
    fuel

/-- The `KNIGHT_ATTACKS` table. -/
def knightAttacksTable : List Nat := tableGo knightEntry 64 0

/-- The `KING_ATTACKS` table. -/
def kingAttacksTable : List Nat := tableGo kingEntry 64 0

/-- `MoveList::knight_attacks`: table lookup. -/
def knightAttacks (square : Nat) : Nat := listGetD knightAttacksTable square 0

/-- `MoveList::king_attacks`: table lookup. -/
def kingAttacks (square : Nat) : Nat := listGetD kingAttacksTable square 0

/-- `MoveList::pawn_attacks`: the diagonal capture squares for a pawn of
`color`, computed with file/rank edge guards. -/
def pawnAttacks (square : Nat) (color : Color) : Nat :=
  let start := fromSquare square
  let file := square % 8
  let rank := square / 8
  match color with
  | .white =>
      cond (Nat.blt rank 7)
        (let moves := 0
         let moves := cond (Nat.blt 0 file) (moves ||| shl64 start 7) moves
         cond (Nat.blt file 7) (moves ||| shl64 start 9) moves)
        0
  | .black =>
      cond (Nat.blt 0 rank)
        (let moves := 0
         let moves := cond (Nat.blt 0 file) (moves ||| (start >>> 9)) moves
         cond (Nat.blt file 7) (moves ||| (start >>> 7)) moves)
        0

/-! ## Sliding attacks (`MoveList::sliding_attacks`) -/

/-- The four per-direction ray boards returned by `sliding_attacks`
(`[BitBoard; 4]`, indexed 0..3 in source order). -/
structure Rays4 where
  d0 : Nat
  d1 : Nat
  d2 : Nat
  d3 : Nat

/-- Loop body of one direction of `sliding_attacks`: step the current
square by `<< s0` then `>> s1` while steps remain, or-ing each stepped
square into the accumulated ray and stopping immediately after stepping
onto a blocker. -/
def slideDirGo (s0 s1 blockers : Nat) : Nat → Nat → Nat → Nat :=
  Nat.rec (motive := fun _ => Nat → Nat → Nat)
    (fun _ acc => acc)
    (fun _ ih sq acc =>
      let sq2 := shl64 sq s0 >>> s1
      let acc2 := acc ||| sq2
      cond ((sq2 &&& blockers) != 0) acc2 (ih sq2 acc2))

/-- One direction of the `sliding_attacks` loop, starting from the origin
square with an empty ray. -/
def slideDir (s0 s1 blockers : Nat) (maxSteps : Nat) (square : Nat) : Nat :=
  slideDirGo s0 s1 blockers maxSteps square 0

/-- `MoveList::sliding_attacks::<DIR>`: `dir = 0` gives the diagonal family
(NE, NW, SE, SW), `dir = 1` the orthogonal family (N, S, E, W); each ray is
bounded by the distance to the board edge. The `_ => panic` arm of the Rust
match is unreachable (only 0 and 1 are instantiated). -/
def slidingAttacks (dir : Nat) (square blockers : Nat) : Rays4 :=
  let rank := square / 8
  let file := square % 8
  let sq := fromSquare square
  cond (dir == 0)
    { d0 := slideDir 9 0 blockers (min (7 - rank) (7 - file)) sq
      d1 := slideDir 7 0 blockers (min (7 - rank) file) sq
      d2 := slideDir 0 7 blockers (min rank (7 - file)) sq
      d3 := slideDir 0 9 blockers (min rank file) sq }
    { d0 := slideDir 8 0 blockers (7 - rank) sq
      d1 := slideDir 0 8 blockers rank sq
      d2 := slideDir 1 0 blockers (7 - file) sq
      d3 := slideDir 0 1 blockers file sq }

/-- `merge_bb`: union of the four rays. -/
def mergeBB (r : Rays4) : Nat := ((r.d0 ||| r.d1) ||| r.d2) ||| r.d3

/-! ## Pseudo moves (`impl MoveList`) -/

/-- `MoveList::sliding_moves::<DIR>`. -/
def slidingMoves (dir square : Nat) (p : Position) : Nat :=
  let friendly := p.board.getColorBB p.activeColor
  let blockers := p.board.getFullBB
  mergeBB (slidingAttacks dir square blockers) &&& not64 friendly

/-- `MoveList::pseudo_bishop_moves`. -/
def pseudoBishopMoves (square : Nat) (p : Position) : Nat := slidingMoves 0 square p

/-- `MoveList::pseudo_rook_moves`. -/
def pseudoRookMoves (square : Nat) (p : Position) : Nat := slidingMoves 1 square p

/-- `MoveList::pseudo_knight_moves`. -/
def pseudoKnightMoves (square : Nat) (p : Position) : Nat :=
  knightAttacks square &&& not64 (p.board.getColorBB p.activeColor)

/-- `MoveList::pseudo_king_moves`. -/
def pseudoKingMoves (square : Nat) (p : Position) : Nat :=
  kingAttacks square &&& not64 (p.board.getColorBB p.activeColor)

/-- `PawnMoves`: pushes, capture attacks and promotion pushes. -/
structure PawnMoves where
  pushes : Nat
  attacks : Nat
  promotions : Nat

/-- `MoveList::pseudo_pawn_moves`. -/
def pseudoPawnMoves (square : Nat) (p : Position) : PawnMoves :=
  let start := fromSquare square
  let rank := square / 8
  let attacks0 := pawnAttacks square p.activeColor
    &&& p.board.getColorBB p.activeColor.opposite
  let blockers := p.board.getFullBB
  match p.activeColor with
  | .white =>
      let pm : PawnMoves :=
        cond ((blockers &&& shl64 start 8) == 0)
          (let next := shl64 start 8
           cond (rank == 6)
             { pushes := 0, attacks := attacks0, promotions := next }
             (cond (Nat.blt rank 6)
               (let next2 := shl64 next 8
                cond (rank == 1 && ((blockers &&& next2) == 0))
                  { pushes := next ||| next2, attacks := attacks0, promotions := 0 }
                  { pushes := next, attacks := attacks0, promotions := 0 })
               { pushes := 0, attacks := attacks0, promotions := 0 }))
          { pushes := 0, attacks := attacks0, promotions := 0 }
      match p.epTarget with
      | some epTarget =>
          let offset := epTarget - square    -- u8::saturating_sub
          cond (offset == 7 || offset == 9)
            { pm with attacks := pm.attacks ||| fromSquare epTarget }
            pm
      | none => pm
  | .black =>
      let pm : PawnMoves :=
        cond ((blockers &&& (start >>> 8)) == 0)
          (let next := start >>> 8
           cond (rank == 1)
             { pushes := 0, attacks := attacks0, promotions := next }
             (cond (Nat.blt 1 rank)
               (let next2 := next >>> 8
                cond (rank == 6 && ((blockers &&& next2) == 0))
                  { pushes := next ||| next2, attacks := attacks0, promotions := 0 }
                  { pushes := next, attacks := attacks0, promotions := 0 })
               { pushes := 0, attacks := attacks0, promotions := 0 }))
          { pushes := 0, attacks := attacks0, promotions := 0 }
      match p.epTarget with
      | some epTarget =>
          let offset := square - epTarget    -- u8::saturating_sub
          cond (offset == 7 || offset == 9)
            { pm with attacks := pm.attacks ||| fromSquare epTarget }
            pm
      | none => pm

/-! ## Opponent state derivation (`OpponentMoves::generate`) -/

/-- Melee checkers and sliding-check rays (`Checkers`). -/
structure Checkers where
  melee : List Nat
  sliders : List Nat

/-- `OpponentMoves`: derived attacker state. `pieces` models the
`[Option<PieceKind>; 64]` array as a total function on square indices. -/
structure OpponentMoves where
  pieces : Nat → Option PieceKind
  attacks : Nat
  checkers : Checkers
  pinners : List (Nat × Nat)
  friendlyKing : Nat

/-- One ray of the `handle_sliding_checker` closure: if the pinner-probe ray
touches the friendly king, a single side-to-move piece on it means a sliding
check (push attacker square ∪ ray) and two mean a pin (push the ray). -/
def hscRay (friendlyKing unfriendly squareBB square : Nat)
    (st : OpponentMoves) (ray : Nat) : OpponentMoves :=
  cond ((ray &&& friendlyKing) != 0)
    (let intersect := u64Popcount (ray &&& unfriendly)
     cond (intersect == 1)
       { st with checkers :=
           { st.checkers with
             sliders := listAppend st.checkers.sliders [squareBB ||| ray] } }
       (cond (intersect == 2)
         { st with pinners := listAppend st.pinners [(square, ray)] }
         st))
    st

/-- The `handle_sliding_checker` closure over all four probe rays, in
source order. -/
def handleSlidingChecker (friendlyKing unfriendly squareBB square : Nat)
    (st : OpponentMoves) (pinner : Rays4) : OpponentMoves :=
  let st := hscRay friendlyKing unfriendly squareBB square st pinner.d0
  let st := hscRay friendlyKing unfriendly squareBB square st pinner.d1
  let st := hscRay friendlyKing unfriendly squareBB square st pinner.d2
  hscRay friendlyKing unfriendly squareBB square st pinner.d3

/-- Loop body of `OpponentMoves::generate` for one attacker square. Note
the final `attacks := pMoves` assignment (not a union), exactly as in the
source. -/
def omStep (posOpp : Position) (friendly unfriendly : Nat)
    (st : OpponentMoves) (square : Nat) : OpponentMoves :=
  let squareBB := fromSquare square
  let b := posOpp.board
  let result :=
    cond ((squareBB &&& b.getPieceKindBB .bishop) != 0)
      (let slider := slidingAttacks 0 square (friendly ||| unfriendly)
       let pinner := slidingAttacks 0 square (friendly ||| st.friendlyKing)
       let st := handleSlidingChecker st.friendlyKing unfriendly squareBB square st pinner
       (st, mergeBB slider, PieceKind.bishop))
      (cond ((squareBB &&& b.getPieceKindBB .rook) != 0)
        (let slider := slidingAttacks 1 square (friendly ||| unfriendly)
         let pinner := slidingAttacks 1 square (friendly ||| st.friendlyKing)
         let st := handleSlidingChecker st.friendlyKing unfriendly squareBB square st pinner
         (st, mergeBB slider, PieceKind.rook))
        (cond ((squareBB &&& b.getPieceKindBB .queen) != 0)
          (let slider := slidingAttacks 0 square (friendly ||| unfriendly)
           let pinner := slidingAttacks 0 square (friendly ||| st.friendlyKing)
           let st := handleSlidingChecker st.friendlyKing unfriendly squareBB square st pinner
           let pMoves := mergeBB slider
           let slider := slidingAttacks 1 square (friendly ||| unfriendly)
           let pinner := slidingAttacks 1 square (friendly ||| st.friendlyKing)
           let st := handleSlidingChecker st.friendlyKing unfriendly squareBB square st pinner
           (st, pMoves ||| mergeBB slider, PieceKind.queen))
          (cond ((squareBB &&& b.getPieceKindBB .knight) != 0)
            (let melee := knightAttacks square
             let st :=
               cond ((melee &&& st.friendlyKing) != 0)
                 { st with checkers :=
                     { st.checkers with melee := listAppend st.checkers.melee [square] } }
                 st
             (st, melee, PieceKind.knight))
            (cond ((squareBB &&& b.getPieceKindBB .pawn) != 0)
              (let melee := pawnAttacks square posOpp.activeColor
               let st :=
                 cond ((melee &&& st.friendlyKing) != 0)
                   { st with checkers :=
                       { st.checkers with melee := listAppend st.checkers.melee [square] } }
                   st
               (st, melee, PieceKind.pawn))
              (cond ((squareBB &&& b.getPieceKindBB .king) != 0)
                (st, kingAttacks square, PieceKind.king)
                (st, 0, PieceKind.pawn))))))
  let st := result.1
  { st with
    attacks := result.2.1
    pieces := fun j => cond (j == square) (some result.2.2) (st.pieces j) }

/-- `OpponentMoves::generate`: fold the per-square step over the attacker
occupancy (the position clone has its active color flipped and its en
passant target cleared). -/
def OpponentMoves.generate (position : Position) : OpponentMoves :=
  let friendlyKing := position.board.getPieceBB position.activeColor .king
  let posOpp := { position with
    activeColor := position.activeColor.opposite, epTarget := none }
  let friendly := posOpp.board.getColorBB posOpp.activeColor
  let unfriendly := posOpp.board.getColorBB posOpp.activeColor.opposite
  let st0 : OpponentMoves :=
    { pieces := fun _ => none, attacks := 0,
      checkers := { melee := [], sliders := [] },
      pinners := [], friendlyKing := friendlyKing }
  listFoldl (omStep posOpp friendly unfriendly) (setIterList friendly) st0

/-! ## Legal move generation (`MoveList::generate_impl`) -/

/-- The `resolve_capture` closure of `generate_impl`. -/
def resolveCapture (oMoves : OpponentMoves) (position : Position)
    (square : Nat) (mover : PieceKind) : Option Capture :=
  match oMoves.pieces square with
  | some piece => some (.regular piece)
  | none =>
      match position.epTarget with
      | some epTarget =>
          cond (mover == PieceKind.pawn && absDiff square epTarget == 8)
            (some (.enPassant epTarget))
            none
      | none => none

/-- `CastlingChecks`: clear squares, safe squares, king destination. -/
structure CastlingChecks where
  clear : Nat
  safe : Nat
  toSq : Nat

/-- `CASTLING_CHECKS[0]` (white king side), from the const initializer. -/
def castlingChecksWOO : CastlingChecks where
  clear := shl64 0b1110 4 &&& not64 (shl64 1 7)
  safe := shl64 0b1110 3
  toSq := toSquareUnchecked (shl64 1 6)

/-- `CASTLING_CHECKS[1]` (white queen side). -/
def castlingChecksWOOO : CastlingChecks where
  clear := 0b1110
  safe := shl64 0b1110 1
  toSq := toSquareUnchecked (shl64 1 2)

/-- `CASTLING_CHECKS[2]` (black king side; its `to_sq` is built from
`1 << 58` in the source). -/
def castlingChecksBOO : CastlingChecks where
  clear := shl64 (shl64 0b111 57) 4 &&& not64 (shl64 1 63)
  safe := shl64 (shl64 0b111 57) 3
  toSq := toSquareUnchecked (shl64 1 58)

/-- `CASTLING_CHECKS[3]` (black queen side; its `to_sq` is built from
`1 << 62` in the source). -/
def castlingChecksBOOO : CastlingChecks where
  clear := shl64 0b111 57
  safe := shl64 (shl64 0b111 57) 1
  toSq := toSquareUnchecked (shl64 1 62)

/-- The `do_checks` closure of `castling_moves`: emit the castling king
move when the in-between squares are clear and the crossed squares are not
attacked. -/
def castlingDoChecks (kingSq blockers attacks : Nat)
    (moves : List MoveExt) (checks : CastlingChecks) : List MoveExt :=
  cond (((checks.clear &&& blockers) == 0) && ((checks.safe &&& attacks) == 0))
    (listAppend moves
      [{ pieceKind := .king, fromSq := kingSq, toSq := checks.toSq,
         promotion := none, capture := none }])
    moves

/-- `MoveList::castling_moves`. -/
def castlingMoves (kingSq : Nat) (position : Position) (attacks : Nat) :
    List MoveExt :=
  let blockers := position.board.getFullBB
  let moves : List MoveExt := []
  match position.activeColor with
  | .white =>
      let moves :=
        cond (castlingContains position.castling whiteOO)
          (castlingDoChecks kingSq blockers attacks moves castlingChecksWOO)
          moves
      cond (castlingContains position.castling whiteOOO)
        (castlingDoChecks kingSq blockers attacks moves castlingChecksWOOO)
        moves
  | .black =>
      let moves :=
        cond (castlingContains position.castling blackOO)
          (castlingDoChecks kingSq blockers attacks moves castlingChecksBOO)
          moves
      cond (castlingContains position.castling blackOOO)
        (castlingDoChecks kingSq blockers attacks moves castlingChecksBOOO)
        moves

/-- Loop body of `generate_impl` for one friendly square: dispatch on the
piece kind bitboards, emit promotion moves for pawns, then emit the moves
of the restricted destination set. Moves are accumulated in reverse push
order (the caller reverses once at the end). -/
def genPieceStep (position : Position) (oMoves : OpponentMoves)
    (restricted : Nat) (acc : List MoveExt) (square : Nat) : List MoveExt :=
  let squareBB := fromSquare square
  let b := position.board
  let result :=
    cond ((squareBB &&& b.getPieceKindBB .bishop) != 0)
      (acc, pseudoBishopMoves square position, PieceKind.bishop)
      (cond ((squareBB &&& b.getPieceKindBB .rook) != 0)
        (acc, pseudoRookMoves square position, PieceKind.rook)
        (cond ((squareBB &&& b.getPieceKindBB .queen) != 0)
          (acc, pseudoBishopMoves square position ||| pseudoRookMoves square position,
           PieceKind.queen)
          (cond ((squareBB &&& b.getPieceKindBB .knight) != 0)
            (acc, pseudoKnightMoves square position, PieceKind.knight)
            (cond ((squareBB &&& b.getPieceKindBB .pawn) != 0)
              (let pawnMoves := pseudoPawnMoves square position
               let promotable := pawnMoves.promotions &&& restricted
               let acc := listFoldl (fun acc2 toSquare =>
                   listFoldl (fun acc3 promoteTo =>
                       { pieceKind := PieceKind.pawn, fromSq := square,
                         toSq := toSquare, promotion := some promoteTo,
                         capture := resolveCapture oMoves position toSquare
                           PieceKind.pawn } :: acc3)
                     [PieceKind.knight, PieceKind.bishop, PieceKind.rook,
                      PieceKind.queen] acc2)
                 (setIterList promotable) acc
               (acc, pawnMoves.pushes ||| pawnMoves.attacks, PieceKind.pawn))
              (acc, 0, PieceKind.pawn)))))
  let acc := result.1
  let pieceKind := result.2.2
  let legalMoves := result.2.1 &&& restricted
  listFoldl (fun acc2 toSquare =>
      { pieceKind := pieceKind, fromSq := square, toSq := toSquare,
        promotion := none,
        capture := resolveCapture oMoves position toSquare pieceKind } :: acc2)
    (setIterList legalMoves) acc

/-- `MoveList::generate_impl`: king moves first, the double-check early
return, the single-checker restriction, per-piece move generation, then
castling moves. -/
def generateImpl (position : Position) (oMoves : OpponentMoves) :
    List MoveExt :=
  let kingSq := toSquareUnchecked oMoves.friendlyKing
  let kingMoves := pseudoKingMoves kingSq position &&& not64 oMoves.attacks
  let moves := listFoldl (fun acc toSquare =>
      { pieceKind := PieceKind.king, fromSq := kingSq, toSq := toSquare,
        promotion := none,
        capture := resolveCapture oMoves position toSquare PieceKind.king } :: acc)
    (setIterList kingMoves) []
  cond (Nat.blt 1 (listLength oMoves.checkers.melee
      + listLength oMoves.checkers.sliders))
    (listReverse moves)
    (let restricted := mask64
     let restricted :=
       match listHead oMoves.checkers.melee with
       | some checkerSq => fromSquare checkerSq
       | none => restricted
     let restricted :=
       match listHead oMoves.checkers.sliders with
       | some checkerRay => checkerRay
       | none => restricted
     let friendly := position.board.getColorBB position.activeColor
     let moves := listFoldl (genPieceStep position oMoves restricted)
       (setIterList friendly) moves
     let castling := castlingMoves kingSq position oMoves.attacks
     listAppend (listReverse moves) castling)

/-- The generator verdict (`MoveList`). -/
inductive MoveList where
  | moves (list : List MoveExt)
  | checkmate
  | stalemate
deriving DecidableEq

/-- `MoveList::generate`: generate, then classify an empty list as mate or
stalemate by whether the king is attacked. -/
def MoveList.generate (position : Position) : MoveList :=
  let opponentMoves := OpponentMoves.generate position
  let moveList := generateImpl position opponentMoves
  match moveList with
  | [] =>
      cond ((opponentMoves.attacks &&& opponentMoves.friendlyKing) != 0)
        .checkmate
        .stalemate
  | _ => .moves moveList

/-! ## Perft (`maven/tests/perft.rs`) -/

/-- Inner loop of `perft`: `nodes += perft(apply(p, m), depth - 1)` over the
move list. Rust evaluates `nodes` eagerly, so the fold forces the running
count before each recursive step (the `cond` on `nodes2` is the strictness
point; both branches are the same value). -/
def perftFold (ih : Position → Nat) (p : Position) : List MoveExt → Nat → Nat :=
  List.rec (motive := fun _ => Nat → Nat)
    (fun nodes => nodes)
    (fun m _ rest nodes =>
      let nodes2 := nodes + ih (p.applyMoveUnchecked m)
      cond (nodes2 == 0) (rest nodes2) (rest nodes2))

/-- `perft`: count leaf positions at `depth` by generating, applying each
returned move to a copy, and recursing; 1 per position at depth 0. -/
def perft (position : Position) (depth : Nat) : Nat :=
  Nat.rec (motive := fun _ => Position → Nat)
    (fun _ => 1)
    (fun _ ih p =>
      match MoveList.generate p with
      | .moves ms => perftFold ih p ms 0
      | _ => 0)
    depth position

/-- The twenty moves the generator emits for the starting position, in
emission order (king moves: none; knights; pawns a2..h2; castling: none). -/
def startingMoveList : List MoveExt :=
  [{ pieceKind := PieceKind.knight, fromSq := 1, toSq := 16, promotion := none, capture := none },
   { pieceKind := PieceKind.knight, fromSq := 1, toSq := 18, promotion := none, capture := none },
   { pieceKind := PieceKind.knight, fromSq := 6, toSq := 21, promotion := none, capture := none },
   { pieceKind := PieceKind.knight, fromSq := 6, toSq := 23, promotion := none, capture := none },
   { pieceKind := PieceKind.pawn, fromSq := 8, toSq := 16, promotion := none, capture := none },
   { pieceKind := PieceKind.pawn, fromSq := 8, toSq := 24, promotion := none, capture := none },
   { pieceKind := PieceKind.pawn, fromSq := 9, toSq := 17, promotion := none, capture := none },
   { pieceKind := PieceKind.pawn, fromSq := 9, toSq := 25, promotion := none, capture := none },
   { pieceKind := PieceKind.pawn, fromSq := 10, toSq := 18, promotion := none, capture := none },
   { pieceKind := PieceKind.pawn, fromSq := 10, toSq := 26, promotion := none, capture := none },
   { pieceKind := PieceKind.pawn, fromSq := 11, toSq := 19, promotion := none, capture := none },
   { pieceKind := PieceKind.pawn, fromSq := 11, toSq := 27, promotion := none, capture := none },
   { pieceKind := PieceKind.pawn, fromSq := 12, toSq := 20, promotion := none, capture := none },
   { pieceKind := PieceKind.pawn, fromSq := 12, toSq := 28, promotion := none, capture := none },
   { pieceKind := PieceKind.pawn, fromSq := 13, toSq := 21, promotion := none, capture := none },
   { pieceKind := PieceKind.pawn, fromSq := 13, toSq := 29, promotion := none, capture := none },
   { pieceKind := PieceKind.pawn, fromSq := 14, toSq := 22, promotion := none, capture := none },
   { pieceKind := PieceKind.pawn, fromSq := 14, toSq := 30, promotion := none, capture := none },
   { pieceKind := PieceKind.pawn, fromSq := 15, toSq := 23, promotion := none, capture := none },
   { pieceKind := PieceKind.pawn, fromSq := 15, toSq := 31, promotion := none, capture := none }]



/-- The record `handle_sliding_checker` pushes onto `checkers.sliders` for
one probe ray: present exactly when the ray touches the friendly king and
exactly one side-to-move piece (the king alone) lies on it. -/
def sliderEntry (friendlyKing unfriendly squareBB ray : Nat) : List Nat :=
  cond (((ray &&& friendlyKing) != 0) && (u64Popcount (ray &&& unfriendly) == 1))
    [squareBB ||| ray] []

/-- The record `handle_sliding_checker` pushes onto `pinners` for one probe
ray: present exactly when the ray touches the friendly king and two
side-to-move pieces (the king plus one other) lie on it. -/
def pinnerEntry (friendlyKing unfriendly : Nat) (square ray : Nat) :
    List (Nat × Nat) :=
  cond (((ray &&& friendlyKing) != 0) && (u64Popcount (ray &&& unfriendly) == 2))
    [(square, ray)] []

/-- Modelled from the spec (section 4.3), for the refinement claim about
`sliding_attacks`: walk from rank/file coordinates in direction
`(dr, df)`, stopping at the board edge, and otherwise collecting each
stepped square up to and including the first blocker square. -/
def specRayGo (blockers : Nat) (dr df : Int) (steps : Nat) : Int → Int → Nat :=
  Nat.rec (motive := fun _ => Int → Int → Nat)
    (fun _ _ => 0)
    (fun _ ih r f =>
      if r + dr < 0 ∨ 7 < r + dr ∨ f + df < 0 ∨ 7 < f + df then 0
      else if 2 ^ ((r + dr) * 8 + (f + df)).toNat &&& blockers ≠ 0 then
        2 ^ ((r + dr) * 8 + (f + df)).toNat
      else 2 ^ ((r + dr) * 8 + (f + df)).toNat ||| ih (r + dr) (f + df))
    steps

/-- Modelled from the spec: the full ray of `specRayGo` from a square
(seven steps bound every ray on an 8x8 board). -/
def specSlidingRay (square : Nat) (dr df : Int) (blockers : Nat) : Nat :=
  specRayGo blockers dr df 7 ((square : Int) / 8) ((square : Int) % 8)

/-- The list held by a `Moves` verdict, `[]` on the terminal verdicts;
used to state that a particular move is generated. -/
def generatedMoves (p : Position) : List MoveExt :=
  match MoveList.generate p with
  | MoveList.moves l => l
  | _ => []

/-- Castling test position `r3k2r/8/8/8/8/8/8/R3K2R w KQkq - 0 1`: both
kings and all four rooks on their home squares, every castling right set. -/
def castlePos : Position where
  board := { white := 0x0000000000000091, black := 0x9100000000000000,
             pawn := 0, knight := 0, bishop := 0,
             rook := 0x8100000000000081, queen := 0,
             king := 0x1000000000000010 }
  activeColor := .white
  castling := castlingAll
  epTarget := none
  halfmoveClock := 0
  fullmoveCounter := 1

/-- The quiet rook move a1-a3. -/
def moveRa1a3 : MoveExt :=
  { pieceKind := .rook, fromSq := 0, toSq := 16, promotion := none,
    capture := none }

/-- The rook capture a1xa8 (a rook takes the opponent rook on the a-file
back rank). -/
def moveRa1xa8 : MoveExt :=
  { pieceKind := .rook, fromSq := 0, toSq := 56, promotion := none,
    capture := some (.regular .rook) }

/-- The pawn double push e2-e4. -/
def movePawnE2e4 : MoveExt :=
  { pieceKind := .pawn, fromSq := 12, toSq := 28, promotion := none,
    capture := none }

/-- The pawn double push e7-e5. -/
def movePawnE7e5 : MoveExt :=
  { pieceKind := .pawn, fromSq := 52, toSq := 36, promotion := none,
    capture := none }

/-- The starting board with black to move and the full-move counter at the
`u8` maximum. -/
def fullmoveWrapPos : Position where
  board := Board.startingPosition
  activeColor := .black
  castling := castlingAll
  epTarget := none
  halfmoveClock := 0
  fullmoveCounter := 255

/-!
## Theorems

The remainder of the file settles the claims about the embedded code.
-/

/-! ## Engine opponent-state derivation (`engine/src/state.rs`) -/

/-- Body of the engine's `handle_king_atk` closure for one king-touching
probe ray (`PositionState::generate_attacks`): `intersect = ray &
unfriendly` where `unfriendly` is the attacker occupancy
(`active_color.opposite()`); one intersection pushes `square_bb | ray` as
a sliding checker, two push it as a pinner ray. -/
def engineKingAtkRecord (unfriendly squareBB : Nat)
    (sliders pinners : List Nat) (ray : Nat) : List Nat × List Nat :=
  cond (u64Popcount (ray &&& unfriendly) == 1)
    (listAppend sliders [squareBB ||| ray], pinners)
    (cond (u64Popcount (ray &&& unfriendly) == 2)
      (sliders, listAppend pinners [squareBB ||| ray])
      (sliders, pinners))

/-- The engine's `handle_king_atk` closure: walk the four probe rays in
order, process the first one that touches the friendly king, then `break`. -/
def engineHandleKingAtk (kingBB unfriendly squareBB : Nat)
    (sliders pinners : List Nat) (probe : Rays4) : List Nat × List Nat :=
  cond ((probe.d0 &&& kingBB) != 0)
    (engineKingAtkRecord unfriendly squareBB sliders pinners probe.d0)
    (cond ((probe.d1 &&& kingBB) != 0)
      (engineKingAtkRecord unfriendly squareBB sliders pinners probe.d1)
      (cond ((probe.d2 &&& kingBB) != 0)
        (engineKingAtkRecord unfriendly squareBB sliders pinners probe.d2)
        (cond ((probe.d3 &&& kingBB) != 0)
          (engineKingAtkRecord unfriendly squareBB sliders pinners probe.d3)
          (sliders, pinners))))

/-- The `Rook` arm of the engine's `PositionState::generate_attacks`, up to
the `handle_king_atk` call: the king probe is
`Generator::sliding_attacks::<1>(square, unfriendly | king_bb)`. -/
def engineGenerateAttacksRook (square : Nat) (unfriendly kingBB : Nat)
    (sliders pinners : List Nat) : List Nat × List Nat :=
  engineHandleKingAtk kingBB unfriendly (fromSquare square) sliders pinners
    (slidingAttacks 1 square (unfriendly ||| kingBB))

/-- The six piece-kind masks are pairwise disjoint (board invariant (ii)). -/
def kindsPairwiseDisjoint (b : Board) : Bool :=
  (b.pawn &&& b.knight == 0) && (b.pawn &&& b.bishop == 0) && (b.pawn &&& b.rook == 0)
    && (b.pawn &&& b.queen == 0) && (b.pawn &&& b.king == 0)
    && (b.knight &&& b.bishop == 0) && (b.knight &&& b.rook == 0)
    && (b.knight &&& b.queen == 0) && (b.knight &&& b.king == 0)
    && (b.bishop &&& b.rook == 0) && (b.bishop &&& b.queen == 0)
    && (b.bishop &&& b.king == 0)
    && (b.rook &&& b.queen == 0) && (b.rook &&& b.king == 0)
    && (b.queen &&& b.king == 0)

/-- The four board invariants of the claim: disjoint color masks, pairwise
disjoint piece-kind masks, color union equal to piece-kind union, and
exactly one king bit per color. -/
def boardInvariantsHold (b : Board) : Bool :=
  (b.white &&& b.black == 0)
    && kindsPairwiseDisjoint b
    && ((b.white ||| b.black)
        == (((((b.pawn ||| b.knight) ||| b.bishop) ||| b.rook) ||| b.queen) ||| b.king))
    && (u64Popcount (b.king &&& b.white) == 1)
    && (u64Popcount (b.king &&& b.black) == 1)

/-- The legal position `r1b1k2r/8/8/8/8/8/8/4K3 b kq - 0 1`: black rooks on
a8 and h8, black bishop on c8, black king on e8, white king on e1, black to
move with both black castling rights; f8 and g8 are empty and unattacked,
so black king-side castling is legal. -/
def c2Pos : Position where
  board := { white := 0x0000000000000010, black := 0x9500000000000000,
             pawn := 0, knight := 0, bishop := 0x0400000000000000,
             rook := 0x8100000000000000, queen := 0,
             king := 0x1000000000000010 }
  activeColor := .black
  castling := blackOO ||| blackOOO
  epTarget := none
  halfmoveClock := 0
  fullmoveCounter := 1

/-- The black king-side castle emitted by `castling_moves`: its `to_sq`
comes from `CASTLING_CHECKS[2].to_sq = (1 << 58).to_square_unchecked()`,
which is c8, not g8. -/
def moveBlackCastleOO : MoveExt :=
  { pieceKind := .king, fromSq := 60, toSq := 58, promotion := none,
    capture := none }

set_option maxRecDepth 100000

/-- The generator emits exactly `startingMoveList` for the starting
position. -/
theorem generate_starting_eq :
    MoveList.generate Position.starting = MoveList.moves startingMoveList := by
  decide!

/-- `perftFold` on the empty move list returns the accumulated count. -/
theorem perftFold_nil (ih : Position → Nat) (p : Position) (nodes : Nat) :
    perftFold ih p [] nodes = nodes := rfl

/-- `perftFold` unfolds one move: recurse on the rest with the count grown
by the subtree size of the applied move. -/
theorem perftFold_cons (ih : Position → Nat) (p : Position) (m : MoveExt)
    (rest : List MoveExt) (nodes : Nat) :
    perftFold ih p (m :: rest) nodes
      = perftFold ih p rest (nodes + ih (p.applyMoveUnchecked m)) := by
  show cond ((nodes + ih (p.applyMoveUnchecked m)) == 0)
      (perftFold ih p rest (nodes + ih (p.applyMoveUnchecked m)))
      (perftFold ih p rest (nodes + ih (p.applyMoveUnchecked m)))
    = perftFold ih p rest (nodes + ih (p.applyMoveUnchecked m))
  cases (nodes + ih (p.applyMoveUnchecked m)) == 0 <;> rfl

/-- `perftFold_cons` specialised to depth 2 with the recursive call spelled
out, so later rewrites match syntactically. -/
theorem perftFold_cons2 (p : Position) (m : MoveExt)
    (rest : List MoveExt) (nodes : Nat) :
    perftFold (fun q => perft q 2) p (m :: rest) nodes
      = perftFold (fun q => perft q 2) p rest
          (nodes + perft (p.applyMoveUnchecked m) 2) :=
  perftFold_cons (fun q => perft q 2) p m rest nodes

/-- A `perft` call at positive depth folds over the generated move list. -/
theorem perft_succ_of_moves (p : Position) (d : Nat) (ms : List MoveExt)
    (h : MoveList.generate p = MoveList.moves ms) :
    perft p (d + 1) = perftFold (fun q => perft q d) p ms 0 := by
  have e : perft p (d + 1)
      = (match MoveList.generate p with
         | MoveList.moves l => perftFold (fun q => perft q d) p l 0
         | _ => 0) := rfl
  rw [e, h]
/-- Perft subtree count at depth 2 below the first move b1a3. -/
theorem perft_child_b1a3 :
    perft (Position.starting.applyMoveUnchecked { pieceKind := PieceKind.knight, fromSq := 1, toSq := 16, promotion := none, capture := none }) 2 = 400 := by
  decide!
/-- Perft subtree count at depth 2 below the first move b1c3. -/
theorem perft_child_b1c3 :
    perft (Position.starting.applyMoveUnchecked { pieceKind := PieceKind.knight, fromSq := 1, toSq := 18, promotion := none, capture := none }) 2 = 440 := by
  decide!
/-- Perft subtree count at depth 2 below the first move g1f3. -/
theorem perft_child_g1f3 :
    perft (Position.starting.applyMoveUnchecked { pieceKind := PieceKind.knight, fromSq := 6, toSq := 21, promotion := none, capture := none }) 2 = 440 := by
  decide!
/-- Perft subtree count at depth 2 below the first move g1h3. -/
theorem perft_child_g1h3 :
    perft (Position.starting.applyMoveUnchecked { pieceKind := PieceKind.knight, fromSq := 6, toSq := 23, promotion := none, capture := none }) 2 = 400 := by
  decide!
/-- Perft subtree count at depth 2 below the first move a2a3. -/
theorem perft_child_a2a3 :
    perft (Position.starting.applyMoveUnchecked { pieceKind := PieceKind.pawn, fromSq := 8, toSq := 16, promotion := none, capture := none }) 2 = 380 := by
  decide!
/-- Perft subtree count at depth 2 below the first move a2a4. -/
theorem perft_child_a2a4 :
    perft (Position.starting.applyMoveUnchecked { pieceKind := PieceKind.pawn, fromSq := 8, toSq := 24, promotion := none, capture := none }) 2 = 420 := by
  decide!
/-- Perft subtree count at depth 2 below the first move b2b3. -/
theorem perft_child_b2b3 :
    perft (Position.starting.applyMoveUnchecked { pieceKind := PieceKind.pawn, fromSq := 9, toSq := 17, promotion := none, capture := none }) 2 = 420 := by
  decide!
/-- Perft subtree count at depth 2 below the first move b2b4. -/
theorem perft_child_b2b4 :
    perft (Position.starting.applyMoveUnchecked { pieceKind := PieceKind.pawn, fromSq := 9, toSq := 25, promotion := none, capture := none }) 2 = 421 := by
  decide!
/-- Perft subtree count at depth 2 below the first move c2c3. -/
theorem perft_child_c2c3 :
    perft (Position.starting.applyMoveUnchecked { pieceKind := PieceKind.pawn, fromSq := 10, toSq := 18, promotion := none, capture := none }) 2 = 420 := by
  decide!
/-- Perft subtree count at depth 2 below the first move c2c4. -/
theorem perft_child_c2c4 :
    perft (Position.starting.applyMoveUnchecked { pieceKind := PieceKind.pawn, fromSq := 10, toSq := 26, promotion := none, capture := none }) 2 = 441 := by
  decide!
/-- Perft subtree count at depth 2 below the first move d2d3. -/
theorem perft_child_d2d3 :
    perft (Position.starting.applyMoveUnchecked { pieceKind := PieceKind.pawn, fromSq := 11, toSq := 19, promotion := none, capture := none }) 2 = 539 := by
  decide!
/-- Perft subtree count at depth 2 below the first move d2d4. -/
theorem perft_child_d2d4 :
    perft (Position.starting.applyMoveUnchecked { pieceKind := PieceKind.pawn, fromSq := 11, toSq := 27, promotion := none, capture := none }) 2 = 560 := by
  decide!
/-- Perft subtree count at depth 2 below the first move e2e3. -/
theorem perft_child_e2e3 :
    perft (Position.starting.applyMoveUnchecked { pieceKind := PieceKind.pawn, fromSq := 12, toSq := 20, promotion := none, capture := none }) 2 = 599 := by
  decide!
/-- Perft subtree count at depth 2 below the first move e2e4. -/
theorem perft_child_e2e4 :
    perft (Position.starting.applyMoveUnchecked { pieceKind := PieceKind.pawn, fromSq := 12, toSq := 28, promotion := none, capture := none }) 2 = 600 := by
  decide!
/-- Perft subtree count at depth 2 below the first move f2f3. -/
theorem perft_child_f2f3 :
    perft (Position.starting.applyMoveUnchecked { pieceKind := PieceKind.pawn, fromSq := 13, toSq := 21, promotion := none, capture := none }) 2 = 380 := by
  decide!
/-- Perft subtree count at depth 2 below the first move f2f4. -/
theorem perft_child_f2f4 :
    perft (Position.starting.applyMoveUnchecked { pieceKind := PieceKind.pawn, fromSq := 13, toSq := 29, promotion := none, capture := none }) 2 = 401 := by
  decide!
/-- Perft subtree count at depth 2 below the first move g2g3. -/
theorem perft_child_g2g3 :
    perft (Position.starting.applyMoveUnchecked { pieceKind := PieceKind.pawn, fromSq := 14, toSq := 22, promotion := none, capture := none }) 2 = 420 := by
  decide!
/-- Perft subtree count at depth 2 below the first move g2g4. -/
theorem perft_child_g2g4 :
    perft (Position.starting.applyMoveUnchecked { pieceKind := PieceKind.pawn, fromSq := 14, toSq := 30, promotion := none, capture := none }) 2 = 421 := by
  decide!
/-- Perft subtree count at depth 2 below the first move h2h3. -/
theorem perft_child_h2h3 :
    perft (Position.starting.applyMoveUnchecked { pieceKind := PieceKind.pawn, fromSq := 15, toSq := 23, promotion := none, capture := none }) 2 = 380 := by
  decide!
/-- Perft subtree count at depth 2 below the first move h2h4. -/
theorem perft_child_h2h4 :
    perft (Position.starting.applyMoveUnchecked { pieceKind := PieceKind.pawn, fromSq := 15, toSq := 31, promotion := none, capture := none }) 2 = 421 := by
  decide!
/-- C1: perft of `maven` at depth 3 from the starting position evaluates
to 8903, one more than the 8902 the claim (and the crate test suite)
require. The extra leaf is the file-wrapping en passant pseudo-capture
h4-a6 emitted after 1. h2h4 a7a5: `pseudo_pawn_moves` adds the en passant
target whenever the index offset is 7 or 9, with no file guard. -/
theorem c1_perft_start_depth3 : perft Position.starting 3 = 8903 := by
  rw [perft_succ_of_moves Position.starting 2 startingMoveList generate_starting_eq]
  unfold startingMoveList
  rw [perftFold_cons2, perft_child_b1a3, perftFold_cons2, perft_child_b1c3, perftFold_cons2, perft_child_g1f3, perftFold_cons2, perft_child_g1h3, perftFold_cons2, perft_child_a2a3, perftFold_cons2, perft_child_a2a4, perftFold_cons2, perft_child_b2b3, perftFold_cons2, perft_child_b2b4, perftFold_cons2, perft_child_c2c3, perftFold_cons2, perft_child_c2c4, perftFold_cons2, perft_child_d2d3, perftFold_cons2, perft_child_d2d4, perftFold_cons2, perft_child_e2e3, perftFold_cons2, perft_child_e2e4, perftFold_cons2, perft_child_f2f3, perftFold_cons2, perft_child_f2f4, perftFold_cons2, perft_child_g2g3, perftFold_cons2, perft_child_g2g4, perftFold_cons2, perft_child_h2h3, perftFold_cons2, perft_child_h2h4,
      perftFold_nil]


/-- C4: the half-move clock is never reset. Applying the generated pawn
double push e2e4 to the starting position (clock 0) yields clock 1, where
the claim requires a reset to 0; likewise the rook capture a1xa8 in the
castling position takes the clock from 0 to 1 instead of resetting it.
The code increments whenever there is no capture or the mover is not a
pawn, and has no reset path at all. -/
theorem c4_halfmove_clock_incremented :
    movePawnE2e4 ∈ startingMoveList
    ∧ (Position.starting.applyMoveUnchecked movePawnE2e4).halfmoveClock = 1
    ∧ moveRa1xa8 ∈ generatedMoves castlePos
    ∧ (castlePos.applyMoveUnchecked moveRa1xa8).halfmoveClock = 1 := by
  decide!

/-- C5: a rook move from the a-file clears the mover's KING-side castling
right, not the queen-side one. Applying the generated move Ra1a3 in the
all-rights castling position leaves `castling = 14` (`0b1110`: `WHITE_OO`
cleared, `WHITE_OOO` still set); the claim requires 13 (`0b1101`).
`CastlingRights::unset_ooo` itself maps the full right set to 14 for
white. -/
theorem c5_unset_ooo_clears_king_side :
    moveRa1a3 ∈ generatedMoves castlePos
    ∧ (castlePos.applyMoveUnchecked moveRa1a3).castling = 14
    ∧ castlingUnsetOOO castlingAll Color.white = 14 := by
  decide!

/-- C6: capturing the rook on a8 with Ra1xa8 leaves `castling = 14`: the
opponent's (black) queen-side right `BLACK_OOO` is still set, while the
mover's own king-side right `WHITE_OO` has been cleared (by the active
color `reset_rook_castling` calls reached from both the move and the
capture). The claim requires black's queen-side right cleared and the
mover's rights untouched by the capture handling. -/
theorem c6_rook_capture_clears_wrong_side :
    moveRa1xa8 ∈ generatedMoves castlePos
    ∧ (castlePos.applyMoveUnchecked moveRa1xa8).castling = 14
    ∧ castlingContains
        (castlePos.applyMoveUnchecked moveRa1xa8).castling blackOOO = true
    ∧ castlingContains
        (castlePos.applyMoveUnchecked moveRa1xa8).castling whiteOO = false := by
  decide!

/-- C8: the full-move counter is an 8-bit field: a black move from counter
255 wraps to 0 instead of counting on to 256 as a counter of at least 16
bits would. -/
theorem c8_fullmove_u8_wraps :
    movePawnE7e5 ∈ generatedMoves fullmoveWrapPos
    ∧ (fullmoveWrapPos.applyMoveUnchecked movePawnE7e5).fullmoveCounter = 0 := by
  decide!

/-- A conjunction with a single-bit mask keeps exactly the tested bit. -/
theorem land_one_shiftLeft (b s : Nat) :
    b &&& (1 <<< s) = cond (b.testBit s) (2 ^ s) 0 := by
  rw [Nat.one_shiftLeft]
  cases h : b.testBit s with
  | true =>
      apply Nat.eq_of_testBit_eq
      intro i
      by_cases hi : s = i
      · subst hi; simp [Nat.testBit_two_pow, h]
      · simp [Nat.testBit_two_pow, hi]
  | false =>
      apply Nat.eq_of_testBit_eq
      intro i
      by_cases hi : s = i
      · subst hi; simp [Nat.testBit_two_pow, h]
      · simp [Nat.testBit_two_pow, hi]

/-- `BitBoard::get` agrees with `Nat.testBit`. -/
theorem bbGet_eq_testBit (b s : Nat) : bbGet b s = b.testBit s := by
  unfold bbGet
  rw [land_one_shiftLeft]
  cases h : b.testBit s with
  | true => simp [(Nat.two_pow_pos s).ne']
  | false => simp

/-- The 64-bit mask has exactly its first 64 bits set. -/
theorem testBit_mask64 (t : Nat) : Nat.testBit mask64 t = decide (t < 64) := by
  rw [show mask64 = 2 ^ 64 - 1 from rfl, Nat.testBit_two_pow_sub_one]

/-- `Nat.testBit` of a bit strictly above a number is false. -/
theorem testBit_one_of_pos (n : Nat) (h : 0 < n) : Nat.testBit 1 n = false :=
  Nat.testBit_lt_two_pow (Nat.one_lt_two_pow (by omega))

/-- Bit description of `BitBoard::set`: bit `s` becomes `value`, other bits
below 64 are kept, bits from 64 up are cleared. -/
theorem testBit_bbSet (b s : Nat) (v : Bool) (hs : s < 64) (t : Nat) :
    (bbSet b s v).testBit t
      = cond (decide (t < 64)) (cond (t == s) v (b.testBit t)) false := by
  unfold bbSet not64
  rw [Nat.testBit_or, Nat.testBit_and, Nat.testBit_xor, testBit_mask64,
    Nat.one_shiftLeft, Nat.testBit_two_pow, Nat.testBit_shiftLeft]
  by_cases h64 : t < 64
  · by_cases hts : t = s
    · subst hts
      cases v <;> simp [h64, Nat.testBit_zero]
    · have hst : ¬ s = t := fun h => hts h.symm
      by_cases hge : t ≥ s
      · have : 0 < t - s := by omega
        cases v <;> simp [h64, hst, hts, hge, testBit_one_of_pos _ this]
      · cases v <;> simp [h64, hst, hts, hge]
  · have hts : ¬ s = t := by omega
    have hts2 : ¬ t = s := by omega
    have hge : t ≥ s := by omega
    have : 0 < t - s := by omega
    cases v <;> simp [h64, hts, hts2, hge, testBit_one_of_pos _ this]

/-- C10: after `BitBoard::set(s, v)`, `get(s)` returns `v`; every other
square is unchanged; and `set(s, get(s))` is the identity. -/
theorem c10_bbSet_bbGet_frame (b s : Nat) (v : Bool)
    (hb : b < 2 ^ 64) (hs : s < 64) :
    bbGet (bbSet b s v) s = v
    ∧ (∀ t, t < 64 → t ≠ s → bbGet (bbSet b s v) t = bbGet b t)
    ∧ bbSet b s (bbGet b s) = b := by
  refine ⟨?_, ?_, ?_⟩
  · rw [bbGet_eq_testBit, testBit_bbSet b s v hs s]
    simp [hs]
  · intro t ht hts
    rw [bbGet_eq_testBit, bbGet_eq_testBit, testBit_bbSet b s v hs t]
    rw [decide_eq_true ht]
    show (bif t == s then v else b.testBit t) = b.testBit t
    cases hbe : t == s with
    | true => simp at hbe; exact absurd hbe hts
    | false => rfl
  · apply Nat.eq_of_testBit_eq
    intro i
    rw [bbGet_eq_testBit, testBit_bbSet b s _ hs i]
    by_cases h64 : i < 64
    · by_cases his : i = s
      · subst his; simp [h64]
      · rw [decide_eq_true h64]
        show (bif i == s then b.testBit s else b.testBit i) = b.testBit i
        cases hbe : i == s with
        | true => simp at hbe; exact absurd hbe his
        | false => rfl
    · have hbi : b.testBit i = false :=
        Nat.testBit_lt_two_pow
          (Nat.lt_of_lt_of_le hb (Nat.pow_le_pow_right (by decide) (by omega)))
      simp [h64, hbi]

/-- Witness for C10 at a concrete board, square and value. -/
theorem c10_bbSet_bbGet_frame_witness :
    (0xF0F0 : Nat) < 2 ^ 64 ∧ 5 < 64
    ∧ (bbGet (bbSet 0xF0F0 5 true) 5 = true
       ∧ (∀ t, t < 64 → t ≠ 5 → bbGet (bbSet 0xF0F0 5 true) t = bbGet 0xF0F0 t)
       ∧ bbSet 0xF0F0 5 (bbGet 0xF0F0 5) = 0xF0F0) :=
  ⟨by decide, by decide, c10_bbSet_bbGet_frame 0xF0F0 5 true (by decide) (by decide)⟩

/-- Unfolding of the trailing-zero scan on positive fuel. -/
theorem u64TzGo_succ (f n : Nat) :
    u64TzGo (f + 1) n = cond ((n &&& 1) == 1) 0 (1 + u64TzGo f (n >>> 1)) := rfl

/-- The trailing-zero scan finds the exact power-of-two factorization:
`n = 2 ^ tz * m` with `m` odd, provided the fuel covers the bit width. -/
theorem u64TzGo_spec (f : Nat) : ∀ n, 0 < n → n < 2 ^ f →
    (n >>> u64TzGo f n) % 2 = 1 ∧ n = 2 ^ (u64TzGo f n) * (n >>> u64TzGo f n) := by
  induction f with
  | zero => intro n h0 h1; omega
  | succ f ih =>
      intro n h0 h1
      rw [u64TzGo_succ]
      cases hodd : (n &&& 1) == 1 with
      | true =>
          have h2 : n % 2 = 1 := by
            have h3 := beq_iff_eq.mp hodd
            rwa [Nat.and_one_is_mod] at h3
          simp [h2]
      | false =>
          have h2 : n % 2 = 0 := by
            have h3 : ¬ (n &&& 1 = 1) := by
              intro h; rw [h] at hodd; simp at hodd
            rw [Nat.and_one_is_mod] at h3
            omega
          have hhalf0 : 0 < n >>> 1 := by
            rw [Nat.shiftRight_one]
            omega
          have hhalf1 : n >>> 1 < 2 ^ f := by
            rw [Nat.shiftRight_one]
            have : 2 ^ (f + 1) = 2 * 2 ^ f := by ring
            omega
          obtain ⟨hm, hfact⟩ := ih (n >>> 1) hhalf0 hhalf1
          have hshift : n >>> (1 + u64TzGo f (n >>> 1))
              = (n >>> 1) >>> u64TzGo f (n >>> 1) := Nat.shiftRight_add n 1 _
          constructor
          · simp [cond, hshift, hm]
          · show n = 2 ^ (1 + u64TzGo f (n >>> 1)) * (n >>> (1 + u64TzGo f (n >>> 1)))
            rw [hshift, Nat.pow_add]
            have hev : n = 2 * (n >>> 1) := by
              rw [Nat.shiftRight_one]; omega
            calc n = 2 * (n >>> 1) := hev
              _ = 2 * (2 ^ (u64TzGo f (n >>> 1)) * ((n >>> 1) >>> u64TzGo f (n >>> 1))) := by
                    rw [← hfact]
              _ = 2 ^ 1 * 2 ^ (u64TzGo f (n >>> 1)) * ((n >>> 1) >>> u64TzGo f (n >>> 1)) := by
                    ring

/-- `u64Tz` on a positive 64-bit value factors out the lowest set bit. -/
theorem u64Tz_spec (n : Nat) (h0 : 0 < n) (h64 : n < 2 ^ 64) :
    (n >>> u64Tz n) % 2 = 1 ∧ n = 2 ^ (u64Tz n) * (n >>> u64Tz n) := by
  have hne : (n == 0) = false := by
    cases h : n == 0 with
    | true => exact absurd (beq_iff_eq.mp h) (by omega)
    | false => rfl
  have he : u64Tz n = u64TzGo 64 n := by unfold u64Tz; rw [hne]; rfl
  rw [he]
  exact u64TzGo_spec 64 n h0 h64

/-- The trailing-zero index of a positive 64-bit value is below 64. -/
theorem u64Tz_lt_64 (n : Nat) (h0 : 0 < n) (h64 : n < 2 ^ 64) :
    u64Tz n < 64 := by
  obtain ⟨hm, hfact⟩ := u64Tz_spec n h0 h64
  have hpos : 0 < n >>> u64Tz n := by
    rcases Nat.eq_zero_or_pos (n >>> u64Tz n) with h | h
    · rw [h] at hm; simp at hm
    · exact h
  have : 2 ^ (u64Tz n) ≤ n := by
    calc 2 ^ (u64Tz n) = 2 ^ (u64Tz n) * 1 := by ring
      _ ≤ 2 ^ (u64Tz n) * (n >>> u64Tz n) := Nat.mul_le_mul_left _ hpos
      _ = n := hfact.symm
  have h2 : 2 ^ (u64Tz n) < 2 ^ 64 := Nat.lt_of_le_of_lt this h64
  exact (Nat.pow_lt_pow_iff_right (by decide)).mp h2

/-- Clearing the lowest set bit: with `n = 2 ^ t * m`, `m` odd, masking off
bit `t` leaves `2 ^ (t + 1) * (m / 2)`. -/
theorem land_not64_lowest (n : Nat) (h0 : 0 < n) (h64 : n < 2 ^ 64) :
    n &&& not64 (fromSquare (u64Tz n))
      = 2 ^ (u64Tz n + 1) * ((n >>> u64Tz n) / 2) := by
  obtain ⟨hm, hfact⟩ := u64Tz_spec n h0 h64
  have ht64 : u64Tz n < 64 := u64Tz_lt_64 n h0 h64
  have hrhs_le : 2 ^ (u64Tz n + 1) * ((n >>> u64Tz n) / 2) ≤ n := by
    calc 2 ^ (u64Tz n + 1) * ((n >>> u64Tz n) / 2)
        = 2 ^ (u64Tz n) * (2 * ((n >>> u64Tz n) / 2)) := by ring
      _ ≤ 2 ^ (u64Tz n) * (n >>> u64Tz n) := by
          apply Nat.mul_le_mul_left
          omega
      _ = n := hfact.symm
  apply Nat.eq_of_testBit_eq
  intro j
  unfold fromSquare not64
  rw [Nat.testBit_and, Nat.testBit_xor, testBit_mask64, Nat.one_shiftLeft,
    Nat.testBit_two_pow, Nat.testBit_mul_pow_two]
  by_cases hj : j < 64
  · by_cases hjt : j = u64Tz n
    · subst hjt
      simp [Nat.not_le.mpr (Nat.lt_succ_self (u64Tz n)), hj]
    · rcases Nat.lt_or_ge j (u64Tz n) with hlt | hge
      · have hnj : n.testBit j = false := by
          rw [hfact, Nat.testBit_mul_pow_two]
          simp [Nat.not_le.mpr hlt]
        simp [hnj, Nat.not_le.mpr (by omega : j < u64Tz n + 1)]
      · have hgt : u64Tz n < j := by omega
        have harith : j - u64Tz n = j - (u64Tz n + 1) + 1 := by omega
        have hnj : n.testBit j = ((n >>> u64Tz n) / 2).testBit (j - (u64Tz n + 1)) := by
          conv_lhs => rw [hfact]
          rw [Nat.testBit_mul_pow_two, Nat.testBit_div_two]
          simp [hge, harith]
        rw [hnj]
        simp [hj, hjt, Ne.symm hjt, Nat.le_of_lt hgt,
          (by omega : u64Tz n + 1 ≤ j)]
  · have hn1 : n.testBit j = false :=
      Nat.testBit_lt_two_pow
        (Nat.lt_of_lt_of_le h64 (Nat.pow_le_pow_right (by decide) (by omega)))
    have hn2 : ((n >>> u64Tz n) / 2).testBit (j - (u64Tz n + 1)) = false := by
      apply Nat.testBit_lt_two_pow
      have hlt : (n >>> u64Tz n) / 2 < 2 ^ (64 - (u64Tz n + 1)) := by
        have hsh : n >>> u64Tz n < 2 ^ (64 - u64Tz n) := by
          rw [Nat.shiftRight_eq_div_pow]
          apply Nat.div_lt_of_lt_mul
          calc n < 2 ^ 64 := h64
            _ = 2 ^ (u64Tz n) * 2 ^ (64 - u64Tz n) := by
                rw [← Nat.pow_add]
                congr 1
                omega
        have : 2 ^ (64 - u64Tz n) = 2 * 2 ^ (64 - (u64Tz n + 1)) := by
          rw [← Nat.pow_succ']
          congr 1
          omega
        omega
      calc (n >>> u64Tz n) / 2 < 2 ^ (64 - (u64Tz n + 1)) := hlt
        _ ≤ 2 ^ (j - (u64Tz n + 1)) := Nat.pow_le_pow_right (by decide) (by omega)
    simp [hn1, hn2]

/-- Peeling the lowest set bit off `Nat.bitIndices`: for positive 64-bit
`n`, the sorted index list starts with the trailing-zero index of `n` and
continues with the indices of `n` with that bit cleared. -/
theorem bitIndices_cons (n : Nat) (h0 : 0 < n) (h64 : n < 2 ^ 64) :
    Nat.bitIndices n
      = u64Tz n :: Nat.bitIndices (n &&& not64 (fromSquare (u64Tz n))) := by
  obtain ⟨hm, hfact⟩ := u64Tz_spec n h0 h64
  have hodd : n >>> u64Tz n = 2 * ((n >>> u64Tz n) / 2) + 1 := by omega
  have hclear := land_not64_lowest n h0 h64
  rw [hclear, Nat.bitIndices_two_pow_mul]
  conv_lhs => rw [hfact, hodd]
  rw [Nat.bitIndices_two_pow_mul, Nat.bitIndices_two_mul_add_one]
  rw [List.map_cons, List.map_map]
  congr 1
  · omega
  · apply List.map_congr_left
    intro a _
    simp
    omega

/-- One successful step of the set-bit iterator on a positive 64-bit
value. -/
theorem setIterGo_succ_pos (f n : Nat) (h0 : 0 < n) (h64 : n < 2 ^ 64) :
    setIterGo (f + 1) n
      = u64Tz n :: setIterGo f (n &&& not64 (fromSquare (u64Tz n))) := by
  have ht64 : u64Tz n < 64 := u64Tz_lt_64 n h0 h64
  have hblt : Nat.blt (u64Tz n) 64 = true := by
    rw [Nat.blt_eq]
    exact ht64
  have hred : setIterNext n
      = (bif (u64Tz n).blt 64
         then some (u64Tz n, n &&& not64 (fromSquare (u64Tz n)))
         else none) := rfl
  have hnext : setIterNext n
      = some (u64Tz n, n &&& not64 (fromSquare (u64Tz n))) := by
    rw [hred, hblt]
    rfl
  show (match setIterNext n with
        | none => []
        | some (sq, inner2) => sq :: setIterGo f inner2)
      = u64Tz n :: setIterGo f (n &&& not64 (fromSquare (u64Tz n)))
  rw [hnext]

/-- The set-bit iterator computes `Nat.bitIndices` whenever the fuel covers
the number of set bits. -/
theorem setIterGo_eq_bitIndices (f : Nat) : ∀ n, n < 2 ^ 64 →
    (Nat.bitIndices n).length ≤ f → setIterGo f n = Nat.bitIndices n := by
  induction f with
  | zero =>
      intro n _ hlen
      have : Nat.bitIndices n = [] := List.length_eq_zero.mp (by omega)
      rw [this]
      rfl
  | succ f ih =>
      intro n h64 hlen
      rcases Nat.eq_zero_or_pos n with h0 | h0
      · subst h0
        rw [Nat.bitIndices_zero]
        rfl
      · have hcons := bitIndices_cons n h0 h64
        have hle : n &&& not64 (fromSquare (u64Tz n)) ≤ n := Nat.and_le_left
        have hlen2 : (Nat.bitIndices (n &&& not64 (fromSquare (u64Tz n)))).length ≤ f := by
          have := congrArg List.length hcons
          simp at this
          omega
        rw [setIterGo_succ_pos f n h0 h64, hcons,
          ih (n &&& not64 (fromSquare (u64Tz n))) (by omega) hlen2]

/-- The popcount scan counts the length of the bit-index list. -/
theorem u64PopcountGo_eq_length (f : Nat) : ∀ n, n < 2 ^ f →
    u64PopcountGo f n = (Nat.bitIndices n).length := by
  induction f with
  | zero =>
      intro n h
      have : n = 0 := by omega
      subst this
      rw [Nat.bitIndices_zero]
      rfl
  | succ f ih =>
      intro n h
      have hstep : u64PopcountGo (f + 1) n
          = cond (n == 0) 0 ((n &&& 1) + u64PopcountGo f (n >>> 1)) := rfl
      rw [hstep]
      cases hz : n == 0 with
      | true =>
          have : n = 0 := beq_iff_eq.mp hz
          subst this
          simp
      | false =>
          have hhalf : n >>> 1 < 2 ^ f := by
            rw [Nat.shiftRight_one]
            have : 2 ^ (f + 1) = 2 * 2 ^ f := by ring
            omega
          rw [Nat.and_one_is_mod]
          rw [ih (n >>> 1) hhalf, Nat.shiftRight_one]
          rcases Nat.even_or_odd n with he | ho
          · have hmod : n % 2 = 0 := Nat.even_iff.mp he
            have hsplit : n = 2 * (n / 2) := by omega
            conv_rhs => rw [hsplit]
            rw [Nat.bitIndices_two_mul]
            simp [hmod]
          · have hmod : n % 2 = 1 := Nat.odd_iff.mp ho
            have hsplit : n = 2 * (n / 2) + 1 := by omega
            conv_rhs => rw [hsplit]
            rw [Nat.bitIndices_two_mul_add_one]
            simp [hmod]
            omega

/-- Membership in `Nat.bitIndices` is bit membership. -/
theorem mem_bitIndices_iff (n : Nat) : ∀ j, j ∈ Nat.bitIndices n ↔ n.testBit j = true := by
  induction n using Nat.binaryRec with
  | z => simp
  | f b n ih =>
      intro j
      cases b with
      | false =>
          rw [Nat.bit_false, Nat.bitIndices_two_mul]
          cases j with
          | zero =>
              simp only [Nat.bit_false] at *
              constructor
              · intro hmem
                rcases List.mem_map.mp hmem with ⟨a, _, ha⟩
                omega
              · intro htb
                exfalso
                have hf : (2 * n).testBit 0 = false := by
                  have hmod : (2 * n) % 2 = 0 := by omega
                  simp [Nat.testBit_zero, hmod]
                rw [hf] at htb
                exact Bool.false_ne_true htb
          | succ j =>
              rw [show Nat.testBit (2 * n) (j + 1) = Nat.testBit n j from by
                rw [← Nat.testBit_div_two]
                congr 1
                omega]
              rw [← ih j]
              constructor
              · intro hmem
                rcases List.mem_map.mp hmem with ⟨a, ha, haj⟩
                have : a = j := by omega
                subst this
                exact ha
              · intro hmem
                exact List.mem_map.mpr ⟨j, hmem, rfl⟩
      | true =>
          rw [Nat.bit_true, Nat.bitIndices_two_mul_add_one]
          cases j with
          | zero =>
              constructor
              · intro _
                have hmod : (2 * n + 1) % 2 = 1 := by omega
                simp [Nat.testBit_zero, hmod]
              · intro _
                exact List.mem_cons_self 0 _
          | succ j =>
              rw [show Nat.testBit (2 * n + 1) (j + 1) = Nat.testBit n j from by
                rw [← Nat.testBit_div_two]
                congr 1
                omega]
              rw [← ih j]
              simp only [List.mem_cons]
              constructor
              · intro h
                rcases h with h | hmem
                · omega
                · rcases List.mem_map.mp hmem with ⟨a, ha, haj⟩
                  have : a = j := by omega
                  subst this
                  exact ha
              · intro hmem
                exact Or.inr (List.mem_map.mpr ⟨j, hmem, rfl⟩)

/-- The popcount scan never exceeds its fuel. -/
theorem u64PopcountGo_le (f : Nat) : ∀ n, u64PopcountGo f n ≤ f := by
  induction f with
  | zero => intro n; exact Nat.le_refl 0
  | succ f ih =>
      intro n
      have hstep : u64PopcountGo (f + 1) n
          = cond (n == 0) 0 ((n &&& 1) + u64PopcountGo f (n >>> 1)) := rfl
      rw [hstep]
      cases n == 0 with
      | true => exact Nat.zero_le _
      | false =>
          have h1 : n &&& 1 ≤ 1 := by rw [Nat.and_one_is_mod]; omega
          have h2 := ih (n >>> 1)
          show (n &&& 1) + u64PopcountGo f (n >>> 1) ≤ f + 1
          omega

/-- C9: the set-bit iterator terminates with exactly the list of set
squares: it equals `Nat.bitIndices`, its length is the popcount, it is
strictly increasing, and it holds each set square exactly once (termination
is inherent: `setIterList` is a total function). -/
theorem c9_set_iter_exact (b : Nat) (hb : b < 2 ^ 64) :
    setIterList b = Nat.bitIndices b
    ∧ (setIterList b).length = u64Popcount b
    ∧ List.Sorted (· < ·) (setIterList b)
    ∧ ∀ s, List.count s (setIterList b) = cond (bbGet b s) 1 0 := by
  have hpc : u64Popcount b = (Nat.bitIndices b).length :=
    u64PopcountGo_eq_length 64 b hb
  have hlen64 : (Nat.bitIndices b).length ≤ 64 := by
    rw [← hpc]
    exact u64PopcountGo_le 64 b
  have heq : setIterList b = Nat.bitIndices b :=
    setIterGo_eq_bitIndices 64 b hb hlen64
  have hsorted : List.Sorted (· < ·) (setIterList b) := by
    rw [heq]
    exact Nat.bitIndices_sorted
  refine ⟨heq, by rw [heq, hpc], hsorted, ?_⟩
  intro s
  rw [heq]
  cases h : bbGet b s with
  | true =>
      have hmem : s ∈ Nat.bitIndices b := by
        rw [mem_bitIndices_iff]
        rw [← bbGet_eq_testBit]
        exact h
      exact List.count_eq_one_of_mem (Nat.bitIndices_sorted.nodup) hmem
  | false =>
      have hmem : s ∉ Nat.bitIndices b := by
        rw [mem_bitIndices_iff]
        rw [← bbGet_eq_testBit, h]
        exact Bool.false_ne_true
      exact List.count_eq_zero.mpr hmem

/-- Witness for C9 at the concrete bitboard `0x91` (bits 0, 4, 7). -/
theorem c9_set_iter_exact_witness :
    (0x91 : Nat) < 2 ^ 64
    ∧ (setIterList 0x91 = Nat.bitIndices 0x91
       ∧ (setIterList 0x91).length = u64Popcount 0x91
       ∧ List.Sorted (· < ·) (setIterList 0x91)
       ∧ ∀ s, List.count s (setIterList 0x91) = cond (bbGet 0x91 s) 1 0) :=
  ⟨by decide, c9_set_iter_exact 0x91 (by decide)⟩

/-- `listAppend` with a cons head. -/
theorem listAppend_cons (a : α) (l m : List α) :
    listAppend (a :: l) m = a :: listAppend l m := rfl

/-- `listAppend` with an empty right argument. -/
theorem listAppend_nil (l : List α) : listAppend l [] = l := by
  induction l with
  | nil => rfl
  | cons a l ih => rw [listAppend_cons, ih]

/-- `listAppend` is associative. -/
theorem listAppend_assoc (l1 l2 l3 : List α) :
    listAppend (listAppend l1 l2) l3 = listAppend l1 (listAppend l2 l3) := by
  induction l1 with
  | nil => rfl
  | cons a l ih => rw [listAppend_cons, listAppend_cons, listAppend_cons, ih]

/-- Closed form of one `handle_sliding_checker` ray: push a slider record
when exactly one side-to-move piece lies on a king-touching ray, a pinner
record when exactly two do, and change nothing else. -/
theorem hscRay_eq (fk unf sqbb sq : Nat) (st : OpponentMoves) (ray : Nat) :
    hscRay fk unf sqbb sq st ray
      = { st with
          checkers := { melee := st.checkers.melee,
                        sliders := listAppend st.checkers.sliders
                          (sliderEntry fk unf sqbb ray) },
          pinners := listAppend st.pinners (pinnerEntry fk unf sq ray) } := by
  have hred : hscRay fk unf sqbb sq st ray
      = cond ((ray &&& fk) != 0)
          (cond (u64Popcount (ray &&& unf) == 1)
            { st with checkers := { melee := st.checkers.melee, sliders := listAppend st.checkers.sliders [sqbb ||| ray] } }
            (cond (u64Popcount (ray &&& unf) == 2)
              { st with pinners := listAppend st.pinners [(sq, ray)] } st))
          st := rfl
  rw [hred]
  unfold sliderEntry pinnerEntry
  cases h1 : (ray &&& fk) != 0 with
  | false => simp [listAppend_nil]
  | true =>
      cases h2 : u64Popcount (ray &&& unf) == 1 with
      | true =>
          have h3 : (u64Popcount (ray &&& unf) == 2) = false := by
            rw [beq_iff_eq.mp h2]
            rfl
          simp [h3, listAppend_nil]
      | false =>
          cases h3 : u64Popcount (ray &&& unf) == 2 with
          | true => simp [listAppend_nil]
          | false => simp [listAppend_nil]

/-- The four probe rays of `handle_sliding_checker` append their slider and
pinner records in ray order and touch nothing else. -/
theorem handleSlidingChecker_eq (fk unf sqbb sq : Nat) (st : OpponentMoves)
    (probe : Rays4) :
    handleSlidingChecker fk unf sqbb sq st probe
      = { st with
          checkers := { melee := st.checkers.melee,
                        sliders := listAppend st.checkers.sliders
                          (listAppend (sliderEntry fk unf sqbb probe.d0)
                            (listAppend (sliderEntry fk unf sqbb probe.d1)
                              (listAppend (sliderEntry fk unf sqbb probe.d2)
                                (sliderEntry fk unf sqbb probe.d3)))) },
          pinners := listAppend st.pinners
            (listAppend (pinnerEntry fk unf sq probe.d0)
              (listAppend (pinnerEntry fk unf sq probe.d1)
                (listAppend (pinnerEntry fk unf sq probe.d2)
                  (pinnerEntry fk unf sq probe.d3)))) } := by
  obtain ⟨d0, d1, d2, d3⟩ := probe
  unfold handleSlidingChecker
  rw [hscRay_eq, hscRay_eq, hscRay_eq, hscRay_eq]
  simp only [listAppend_assoc]

/-- In maven's opponent-state derivation the pinner-probe rays (against the
attacker occupancy plus the friendly king) that touch the friendly king are
recorded as sliding checkers exactly when one side-to-move piece lies on
the ray, and as pin rays exactly when two do - in ray order, with the
attacker square merged into the recorded checker ray. The engine crate's
version of this derivation does not satisfy the classification; see the
theorem on `engineHandleKingAtk` below. -/
theorem maven_pinner_probe_classification (st : OpponentMoves)
    (dir square friendly unfriendly : Nat) :
    (handleSlidingChecker st.friendlyKing unfriendly (fromSquare square) square st
        (slidingAttacks dir square (friendly ||| st.friendlyKing))).checkers.sliders
      = listAppend st.checkers.sliders
          (listAppend
            (sliderEntry st.friendlyKing unfriendly (fromSquare square)
              (slidingAttacks dir square (friendly ||| st.friendlyKing)).d0)
            (listAppend
              (sliderEntry st.friendlyKing unfriendly (fromSquare square)
                (slidingAttacks dir square (friendly ||| st.friendlyKing)).d1)
              (listAppend
                (sliderEntry st.friendlyKing unfriendly (fromSquare square)
                  (slidingAttacks dir square (friendly ||| st.friendlyKing)).d2)
                (sliderEntry st.friendlyKing unfriendly (fromSquare square)
                  (slidingAttacks dir square (friendly ||| st.friendlyKing)).d3))))
    ∧ (handleSlidingChecker st.friendlyKing unfriendly (fromSquare square) square st
        (slidingAttacks dir square (friendly ||| st.friendlyKing))).pinners
      = listAppend st.pinners
          (listAppend
            (pinnerEntry st.friendlyKing unfriendly square
              (slidingAttacks dir square (friendly ||| st.friendlyKing)).d0)
            (listAppend
              (pinnerEntry st.friendlyKing unfriendly square
                (slidingAttacks dir square (friendly ||| st.friendlyKing)).d1)
              (listAppend
                (pinnerEntry st.friendlyKing unfriendly square
                  (slidingAttacks dir square (friendly ||| st.friendlyKing)).d2)
                (pinnerEntry st.friendlyKing unfriendly square
                  (slidingAttacks dir square (friendly ||| st.friendlyKing)).d3)))) := by
  rw [handleSlidingChecker_eq]
  exact ⟨rfl, rfl⟩

/-- C3: the engine's pinner-probe classification never records anything. A
lone black rook on e8 checks the white king on e1 along the open e-file
(white to move): the probe's south ray touches the king and exactly one
side-to-move piece - the king alone, white occupancy `0x10` - lies on it,
so the claim requires a sliding-checker entry; but `handle_king_atk`
intersects the ray with `unfriendly`, the attacker occupancy the probe
already used as blockers, so a king-touching ray never meets it,
`n_intersect` is 0 and neither a checker nor a pin is recorded. -/
theorem c3_engine_king_atk_misses_check :
    ((slidingAttacks 1 60 (0x1000000000000000 ||| 0x10)).d1 &&& 0x10 ≠ 0
        ∧ u64Popcount ((slidingAttacks 1 60 (0x1000000000000000 ||| 0x10)).d1 &&& 0x10) = 1)
      ∧ engineGenerateAttacksRook 60 0x1000000000000000 0x10 [] [] = ([], []) := by
  refine ⟨⟨by decide!, by decide!⟩, by decide!⟩

/-- A single sliding step on a one-bit board: shifting left by `s0` and
right by `s1` moves bit `i` to bit `j` when `i + s0 - s1 = j` and one of
the two shift amounts is zero (as in every direction of
`sliding_attacks`). -/
theorem pow_shift_step (i j s0 s1 : Nat)
    (hij : (i : Int) + s0 - s1 = j) (h0 : s0 = 0 ∨ s1 = 0)
    (hi : i < 64) (hj : j < 64) :
    shl64 (2 ^ i) s0 >>> s1 = 2 ^ j := by
  have hmask : ∀ x : Nat, x < 2 ^ 64 → x &&& mask64 = x := by
    intro x hx
    show x &&& (2 ^ 64 - 1) = x
    exact Nat.and_pow_two_sub_one_of_lt_two_pow hx
  rcases h0 with rfl | rfl
  · have hs1 : s1 ≤ i := by omega
    have hieq : i = j + s1 := by omega
    unfold shl64
    rw [Nat.shiftLeft_eq, Nat.pow_zero, Nat.mul_one]
    rw [hmask (2 ^ i) (by
      apply Nat.pow_lt_pow_right (by decide)
      omega)]
    rw [Nat.shiftRight_eq_div_pow, hieq, Nat.pow_add]
    exact Nat.mul_div_cancel _ (Nat.two_pow_pos s1)
  · have hieq : i + s0 = j := by omega
    unfold shl64
    rw [Nat.shiftLeft_eq, ← Nat.pow_add, hieq]
    rw [Nat.shiftRight_zero]
    exact hmask (2 ^ j) (Nat.pow_lt_pow_right (by decide) (by omega))

/-- Unfolding of one step of the spec ray walk. -/
theorem specRayGo_succ (blockers : Nat) (dr df : Int) (m : Nat) (r f : Int) :
    specRayGo blockers dr df (m + 1) r f
      = if r + dr < 0 ∨ 7 < r + dr ∨ f + df < 0 ∨ 7 < f + df then 0
        else if 2 ^ ((r + dr) * 8 + (f + df)).toNat &&& blockers ≠ 0 then
          2 ^ ((r + dr) * 8 + (f + df)).toNat
        else 2 ^ ((r + dr) * 8 + (f + df)).toNat
          ||| specRayGo blockers dr df m (r + dr) (f + df) := rfl

/-- The `sliding_attacks` direction loop computes the spec ray walk: from
in-board coordinates, with the step count equal to the distance to the
board edge in the direction of travel, the loop result is the accumulated
ray or-ed with the spec walk. -/
theorem slideDirGo_eq_specRayGo (blockers s0 s1 : Nat) (dr df : Int)
    (hdelta : 8 * dr + df = (s0 : Int) - (s1 : Int))
    (hzero : s0 = 0 ∨ s1 = 0)
    (hfr : dr = 1 ∨ dr = 0 ∨ dr = -1)
    (hff : df = 1 ∨ df = 0 ∨ df = -1) :
    ∀ (k fuel r f acc : Nat),
      r < 8 → f < 8 → k ≤ fuel →
      0 ≤ (r : Int) + k * dr → (r : Int) + k * dr ≤ 7 →
      0 ≤ (f : Int) + k * df → (f : Int) + k * df ≤ 7 →
      ((r : Int) + (k + 1) * dr < 0 ∨ 7 < (r : Int) + (k + 1) * dr
        ∨ (f : Int) + (k + 1) * df < 0 ∨ 7 < (f : Int) + (k + 1) * df) →
      slideDirGo s0 s1 blockers k (2 ^ (r * 8 + f)) acc
        = acc ||| specRayGo blockers dr df fuel (r : Int) (f : Int) := by
  intro k
  induction k with
  | zero =>
      intro fuel r f acc hr hf _ _ _ _ _ hbreak
      have hspec : specRayGo blockers dr df fuel (r : Int) (f : Int) = 0 := by
        cases fuel with
        | zero => rfl
        | succ m =>
            rw [specRayGo_succ]
            rw [if_pos]
            rcases hfr with rfl | rfl | rfl <;> rcases hff with rfl | rfl | rfl <;>
              · simp only [Int.mul_one, Int.mul_zero, Int.mul_neg, Int.one_mul] at hbreak ⊢
                omega
      rw [hspec, Nat.or_zero]
      rfl
  | succ k ih =>
      intro fuel r f acc hr hf hkf hr0 hr7 hf0 hf7 hbreak
      obtain ⟨fuel2, rfl⟩ : ∃ m, fuel = m + 1 := ⟨fuel - 1, by omega⟩
      -- the stepped coordinates stay on the board
      have hrange : 0 ≤ (r : Int) + dr ∧ (r : Int) + dr ≤ 7
          ∧ 0 ≤ (f : Int) + df ∧ (f : Int) + df ≤ 7 := by
        rcases hfr with rfl | rfl | rfl <;> rcases hff with rfl | rfl | rfl <;>
          · simp only [Int.mul_one, Int.mul_zero, Int.mul_neg, Int.one_mul] at hr0 hr7 hf0 hf7
            omega
      obtain ⟨ha, hb, hc, hd⟩ := hrange
      set r2 : Nat := ((r : Int) + dr).toNat with hr2def
      set f2 : Nat := ((f : Int) + df).toNat with hf2def
      have hr2i : ((r2 : Nat) : Int) = (r : Int) + dr := by omega
      have hf2i : ((f2 : Nat) : Int) = (f : Int) + df := by omega
      have hr2lt : r2 < 8 := by omega
      have hf2lt : f2 < 8 := by omega
      have hidx : ((r * 8 + f : Nat) : Int) + s0 - s1 = ((r2 * 8 + f2 : Nat) : Int) := by
        push_cast
        omega
      have hstep : shl64 (2 ^ (r * 8 + f)) s0 >>> s1 = 2 ^ (r2 * 8 + f2) :=
        pow_shift_step _ _ _ _ hidx hzero (by omega) (by omega)
      have hsrc : slideDirGo s0 s1 blockers (k + 1) (2 ^ (r * 8 + f)) acc
          = cond ((2 ^ (r2 * 8 + f2) &&& blockers) != 0)
              (acc ||| 2 ^ (r2 * 8 + f2))
              (slideDirGo s0 s1 blockers k (2 ^ (r2 * 8 + f2))
                (acc ||| 2 ^ (r2 * 8 + f2))) := by
        show (let sq2 := shl64 (2 ^ (r * 8 + f)) s0 >>> s1
              let acc2 := acc ||| sq2
              cond ((sq2 &&& blockers) != 0) acc2
                (slideDirGo s0 s1 blockers k sq2 acc2)) = _
        rw [hstep]
      have hspec : specRayGo blockers dr df (fuel2 + 1) (r : Int) (f : Int)
          = if 2 ^ (r2 * 8 + f2) &&& blockers ≠ 0 then 2 ^ (r2 * 8 + f2)
            else 2 ^ (r2 * 8 + f2)
              ||| specRayGo blockers dr df fuel2 ((r : Int) + dr) ((f : Int) + df) := by
        rw [specRayGo_succ]
        rw [if_neg (by omega)]
        have htn : (((r : Int) + dr) * 8 + ((f : Int) + df)).toNat = r2 * 8 + f2 := by
          omega
        rw [htn]
      rw [hsrc, hspec]
      by_cases hblk : 2 ^ (r2 * 8 + f2) &&& blockers = 0
      · rw [if_neg (by omega), hblk]
        have hmiss : ((0 : Nat) != 0) = false := rfl
        rw [hmiss, cond_false]
        have hkdr : ∀ j : Int, (r2 : Int) + j * dr = (r : Int) + (j + 1) * dr := by
          intro j
          rw [hr2i]
          ring
        have hkdf : ∀ j : Int, (f2 : Int) + j * df = (f : Int) + (j + 1) * df := by
          intro j
          rw [hf2i]
          ring
        have ihres := ih fuel2 r2 f2 (acc ||| 2 ^ (r2 * 8 + f2)) hr2lt hf2lt
          (by omega)
          (by rw [hkdr]; exact_mod_cast hr0)
          (by rw [hkdr]; exact_mod_cast hr7)
          (by rw [hkdf]; exact_mod_cast hf0)
          (by rw [hkdf]; exact_mod_cast hf7)
          (by rw [hkdr (k + 1), hkdf (k + 1)]; exact_mod_cast hbreak)
        rw [ihres, hr2i, hf2i, Nat.or_assoc]
      · rw [if_pos hblk]
        have hhit : ((2 ^ (r2 * 8 + f2) &&& blockers) != 0) = true := by
          cases hx : (2 ^ (r2 * 8 + f2) &&& blockers) != 0 with
          | true => rfl
          | false =>
              exfalso
              apply hblk
              have := bne_eq_false_iff_eq.mp hx
              exact this
        rw [hhit, cond_true]

/-- Bridge from one `sliding_attacks` direction to the spec ray: when the
step count keeps every stepped square on the board and one more step would
leave it, the loop computes exactly the spec walk from the origin. -/
theorem slideDir_eq_specSlidingRay (blockers s0 s1 : Nat) (dr df : Int) (square k : Nat)
    (hsq : square < 64)
    (hdelta : 8 * dr + df = (s0 : Int) - (s1 : Int))
    (hzero : s0 = 0 ∨ s1 = 0)
    (hfr : dr = 1 ∨ dr = 0 ∨ dr = -1)
    (hff : df = 1 ∨ df = 0 ∨ df = -1)
    (hk : k ≤ 7)
    (hin : 0 ≤ ((square / 8 : Nat) : Int) + k * dr
      ∧ ((square / 8 : Nat) : Int) + k * dr ≤ 7
      ∧ 0 ≤ ((square % 8 : Nat) : Int) + k * df
      ∧ ((square % 8 : Nat) : Int) + k * df ≤ 7)
    (hbreak : ((square / 8 : Nat) : Int) + (k + 1) * dr < 0
      ∨ 7 < ((square / 8 : Nat) : Int) + (k + 1) * dr
      ∨ ((square % 8 : Nat) : Int) + (k + 1) * df < 0
      ∨ 7 < ((square % 8 : Nat) : Int) + (k + 1) * df) :
    slideDir s0 s1 blockers k (fromSquare square) = specSlidingRay square dr df blockers := by
  have hfs : fromSquare square = 2 ^ (square / 8 * 8 + square % 8) := by
    rw [show square / 8 * 8 + square % 8 = square from by omega]
    unfold fromSquare
    rw [Nat.shiftLeft_eq, Nat.one_mul]
  have hcr : (square : Int) / 8 = ((square / 8 : Nat) : Int) := by omega
  have hcf : (square : Int) % 8 = ((square % 8 : Nat) : Int) := by omega
  unfold slideDir
  rw [hfs]
  unfold specSlidingRay
  rw [hcr, hcf]
  rw [slideDirGo_eq_specRayGo blockers s0 s1 dr df hdelta hzero hfr hff
    k 7 (square / 8) (square % 8) 0 (by omega) (by omega) hk
    hin.1 hin.2.1 hin.2.2.1 hin.2.2.2 hbreak]
  exact Nat.zero_or _

/-- Diagonal ray to the north-east (`<< 9`). -/
theorem slidingAttacks_d0_diag (square blockers : Nat) (hsq : square < 64) :
    (slidingAttacks 0 square blockers).d0 = specSlidingRay square 1 1 blockers := by
  show slideDir 9 0 blockers (min (7 - square / 8) (7 - square % 8)) (fromSquare square) = _
  exact slideDir_eq_specSlidingRay blockers 9 0 1 1 square _ hsq (by decide)
    (Or.inr rfl) (Or.inl rfl) (Or.inl rfl) (by omega)
    (by refine ⟨by omega, by omega, by omega, by omega⟩) (by omega)

/-- Diagonal ray to the north-west (`<< 7`). -/
theorem slidingAttacks_d1_diag (square blockers : Nat) (hsq : square < 64) :
    (slidingAttacks 0 square blockers).d1 = specSlidingRay square 1 (-1) blockers := by
  show slideDir 7 0 blockers (min (7 - square / 8) (square % 8)) (fromSquare square) = _
  exact slideDir_eq_specSlidingRay blockers 7 0 1 (-1) square _ hsq (by decide)
    (Or.inr rfl) (Or.inl rfl) (Or.inr (Or.inr rfl)) (by omega)
    (by refine ⟨by omega, by omega, by omega, by omega⟩) (by omega)

/-- Diagonal ray to the south-east (`>> 7`). -/
theorem slidingAttacks_d2_diag (square blockers : Nat) (hsq : square < 64) :
    (slidingAttacks 0 square blockers).d2 = specSlidingRay square (-1) 1 blockers := by
  show slideDir 0 7 blockers (min (square / 8) (7 - square % 8)) (fromSquare square) = _
  exact slideDir_eq_specSlidingRay blockers 0 7 (-1) 1 square _ hsq (by decide)
    (Or.inl rfl) (Or.inr (Or.inr rfl)) (Or.inl rfl) (by omega)
    (by refine ⟨by omega, by omega, by omega, by omega⟩) (by omega)

/-- Diagonal ray to the south-west (`>> 9`). -/
theorem slidingAttacks_d3_diag (square blockers : Nat) (hsq : square < 64) :
    (slidingAttacks 0 square blockers).d3 = specSlidingRay square (-1) (-1) blockers := by
  show slideDir 0 9 blockers (min (square / 8) (square % 8)) (fromSquare square) = _
  exact slideDir_eq_specSlidingRay blockers 0 9 (-1) (-1) square _ hsq (by decide)
    (Or.inl rfl) (Or.inr (Or.inr rfl)) (Or.inr (Or.inr rfl)) (by omega)
    (by refine ⟨by omega, by omega, by omega, by omega⟩) (by omega)

/-- Orthogonal ray to the north (`<< 8`). -/
theorem slidingAttacks_d0_orth (square blockers : Nat) (hsq : square < 64) :
    (slidingAttacks 1 square blockers).d0 = specSlidingRay square 1 0 blockers := by
  show slideDir 8 0 blockers (7 - square / 8) (fromSquare square) = _
  exact slideDir_eq_specSlidingRay blockers 8 0 1 0 square _ hsq (by decide)
    (Or.inr rfl) (Or.inl rfl) (Or.inr (Or.inl rfl)) (by omega)
    (by refine ⟨by omega, by omega, by omega, by omega⟩) (by omega)

/-- Orthogonal ray to the south (`>> 8`). -/
theorem slidingAttacks_d1_orth (square blockers : Nat) (hsq : square < 64) :
    (slidingAttacks 1 square blockers).d1 = specSlidingRay square (-1) 0 blockers := by
  show slideDir 0 8 blockers (square / 8) (fromSquare square) = _
  exact slideDir_eq_specSlidingRay blockers 0 8 (-1) 0 square _ hsq (by decide)
    (Or.inl rfl) (Or.inr (Or.inr rfl)) (Or.inr (Or.inl rfl)) (by omega)
    (by refine ⟨by omega, by omega, by omega, by omega⟩) (by omega)

/-- Orthogonal ray to the east (`<< 1`). -/
theorem slidingAttacks_d2_orth (square blockers : Nat) (hsq : square < 64) :
    (slidingAttacks 1 square blockers).d2 = specSlidingRay square 0 1 blockers := by
  show slideDir 1 0 blockers (7 - square % 8) (fromSquare square) = _
  exact slideDir_eq_specSlidingRay blockers 1 0 0 1 square _ hsq (by decide)
    (Or.inr rfl) (Or.inr (Or.inl rfl)) (Or.inl rfl) (by omega)
    (by refine ⟨by omega, by omega, by omega, by omega⟩) (by omega)

/-- Orthogonal ray to the west (`>> 1`). -/
theorem slidingAttacks_d3_orth (square blockers : Nat) (hsq : square < 64) :
    (slidingAttacks 1 square blockers).d3 = specSlidingRay square 0 (-1) blockers := by
  show slideDir 0 1 blockers (square % 8) (fromSquare square) = _
  exact slideDir_eq_specSlidingRay blockers 0 1 0 (-1) square _ hsq (by decide)
    (Or.inl rfl) (Or.inr (Or.inl rfl)) (Or.inr (Or.inr rfl)) (by omega)
    (by refine ⟨by omega, by omega, by omega, by omega⟩) (by omega)

/-- C7: for every square and blocker board, each of the four rays of both
families of `sliding_attacks` equals the spec ray walk `specSlidingRay`
in its direction: the consecutive squares stepped from the origin toward
the board edge, stopping immediately after stepping onto a blocker (the
blocker square included, nothing beyond it), never wrapping a file edge
and never leaving the board, the walk bounded by the origin's distance to
the edge. -/
theorem c7_sliding_attacks_rays (square blockers : Nat) (hsq : square < 64) :
    ((slidingAttacks 0 square blockers).d0 = specSlidingRay square 1 1 blockers
      ∧ (slidingAttacks 0 square blockers).d1 = specSlidingRay square 1 (-1) blockers
      ∧ (slidingAttacks 0 square blockers).d2 = specSlidingRay square (-1) 1 blockers
      ∧ (slidingAttacks 0 square blockers).d3 = specSlidingRay square (-1) (-1) blockers)
    ∧ ((slidingAttacks 1 square blockers).d0 = specSlidingRay square 1 0 blockers
      ∧ (slidingAttacks 1 square blockers).d1 = specSlidingRay square (-1) 0 blockers
      ∧ (slidingAttacks 1 square blockers).d2 = specSlidingRay square 0 1 blockers
      ∧ (slidingAttacks 1 square blockers).d3 = specSlidingRay square 0 (-1) blockers) :=
  ⟨⟨slidingAttacks_d0_diag square blockers hsq, slidingAttacks_d1_diag square blockers hsq,
    slidingAttacks_d2_diag square blockers hsq, slidingAttacks_d3_diag square blockers hsq⟩,
   ⟨slidingAttacks_d0_orth square blockers hsq, slidingAttacks_d1_orth square blockers hsq,
    slidingAttacks_d2_orth square blockers hsq, slidingAttacks_d3_orth square blockers hsq⟩⟩

/-- C7 witness: the bishop on f5 against the blocker set of the crate's
`bishop_moves` unit test; all eight ray equalities hold at that input. -/
theorem c7_sliding_attacks_rays_witness :
    37 < 64
      ∧ ((slidingAttacks 0 37 0x2000200000000).d0 = specSlidingRay 37 1 1 0x2000200000000
        ∧ (slidingAttacks 0 37 0x2000200000000).d1 = specSlidingRay 37 1 (-1) 0x2000200000000
        ∧ (slidingAttacks 0 37 0x2000200000000).d2
            = specSlidingRay 37 (-1) 1 0x2000200000000
        ∧ (slidingAttacks 0 37 0x2000200000000).d3
            = specSlidingRay 37 (-1) (-1) 0x2000200000000)
      ∧ ((slidingAttacks 1 37 0x2000200000000).d0 = specSlidingRay 37 1 0 0x2000200000000
        ∧ (slidingAttacks 1 37 0x2000200000000).d1
            = specSlidingRay 37 (-1) 0 0x2000200000000
        ∧ (slidingAttacks 1 37 0x2000200000000).d2 = specSlidingRay 37 0 1 0x2000200000000
        ∧ (slidingAttacks 1 37 0x2000200000000).d3
            = specSlidingRay 37 0 (-1) 0x2000200000000) :=
  ⟨by decide, c7_sliding_attacks_rays 37 0x2000200000000 (by decide)⟩

/-- C2: the four board invariants are not preserved by move application on
generated moves. In the legal position `r1b1k2r/8/8/8/8/8/8/4K3 b kq - 0 1`
(which satisfies all four invariants) the generator emits black king-side
castling with `to_sq` c8 instead of g8; applying it lands the king on the
bishop's square, so the piece-kind masks are no longer pairwise disjoint. -/
theorem c2_apply_move_breaks_invariants :
    boardInvariantsHold c2Pos.board = true
      ∧ moveBlackCastleOO ∈ generatedMoves c2Pos
      ∧ kindsPairwiseDisjoint (Position.applyMoveUnchecked c2Pos moveBlackCastleOO).board
          = false
      ∧ boardInvariantsHold (Position.applyMoveUnchecked c2Pos moveBlackCastleOO).board
          = false := by
  refine ⟨by decide!, by decide!, by decide!, by decide!⟩

end Sealion

